import Mathlib

/-!
Verification development for the car-sales back-office API
(`fase-1-car-sales`): a shallow embedding of the sale ledger, the
vehicle-image manager, the message tracker and the token-revocation
logic of the application services, together with proofs about the
embedded operations.

Money values (Python `Decimal`) are embedded as `ℚ`; database tables are
embedded as lists of rows; each service operation is a pure function
from the old store and the request to the new store and a result.
The `Sale` domain entity (`sale_model.py`) and the sale repository port
are absent from the source tree (only their callers are present), so
those definitions are modelled from the spec, as marked in their doc
comments; everything else is translated from the source files.
-/

namespace CarSales

/-- Money values: exact decimal arithmetic (Python `Decimal`) embedded in `ℚ`. -/
abbrev Money := ℚ

/-! ## Python truthiness helpers

The services test optional values with Python truthiness (`if x:`),
under which `None`, `0`, `Decimal(0)` and `""` are all falsy. -/

/-- Python truthiness of an optional string: `None` and `""` are falsy. -/
def strTruthy : Option String → Bool
  | none => false
  | some s => s != ""

/-- Python truthiness of an optional integer: `None` and `0` are falsy. -/
def natTruthy : Option Nat → Bool
  | none => false
  | some n => n != 0

/-- Python truthiness of an optional `Int`: `None` and `0` are falsy. -/
def intTruthy : Option Int → Bool
  | none => false
  | some i => i != 0

/-- Python truthiness of an optional `Decimal`: `None` and `0` are falsy. -/
def qTruthy : Option Money → Bool
  | none => false
  | some q => q != 0

/-- Python `a or b` on an optional `Decimal` `a`: yields `b` when `a` is falsy. -/
def qOr (a : Option Money) (b : Money) : Money :=
  match a with
  | none => b
  | some q => if q = 0 then b else q

/-! ## Sale ledger: data model -/

/-- The payment-method allow-list; it appears verbatim in the validators of
`sale_dto.py` and is the list `Sale.is_valid_payment_method` checks. -/
def validPaymentMethods : List String :=
  ["À vista", "Cartão de crédito", "Cartão de débito", "Financiamento", "Consórcio", "PIX"]

/-- The five sale statuses, from the validators of `sale_dto.py`
(Pendente = Pending, Confirmada = Confirmed, Paga = Paid,
Entregue = Delivered, Cancelada = Cancelled). -/
def validSaleStatuses : List String :=
  ["Pendente", "Confirmada", "Paga", "Entregue", "Cancelada"]

/-- Modelled from the spec: the `Sale` entity of the absent
`src/app/src/domain/entities/sale_model.py`, restricted to its scalar
columns (the spec lists total_amount, discount_amount, tax_amount,
commission_rate, payment_method, status, sale_date, notes and the
derived commission_amount). -/
structure Sale where
  id : Nat
  client_id : Nat
  employee_id : Nat
  vehicle_id : Nat
  total_amount : Money
  payment_method : String
  status : String
  sale_date : Int
  notes : Option String
  discount_amount : Money
  tax_amount : Money
  commission_rate : Money
  commission_amount : Money
deriving DecidableEq

/-- Modelled from the spec: `Sale.is_valid_payment_method` of the absent
`sale_model.py`; the allow-list itself appears verbatim in `sale_dto.py`. -/
def Sale.is_valid_payment_method (m : String) : Bool :=
  validPaymentMethods.contains m

/-- Modelled from the spec: `Sale.is_valid_status` of the absent
`sale_model.py`; the five statuses appear verbatim in `sale_dto.py`. -/
def Sale.is_valid_status (s : String) : Bool :=
  validSaleStatuses.contains s

/-- Modelled from the spec: `Sale.STATUS_CONFIRMADA`, the Confirmed status
literal of the absent `sale_model.py` (matches the allow-list in
`sale_dto.py`). -/
def Sale.STATUS_CONFIRMADA : String := "Confirmada"

/-- Modelled from the spec: the derived commission,
`commission_amount = total_amount * commission_rate / 100`. -/
def commissionOf (total rate : Money) : Money :=
  total * rate / 100

/-- Modelled from the spec: `Sale.create_sale` of the absent `sale_model.py`.
Initial status is Pendente (Pending); commission_amount is computed, never
an input. The row id is assigned later by the database. -/
def Sale.create_sale (client_id employee_id vehicle_id : Nat) (total_amount : Money)
    (payment_method : String) (sale_date : Int) (notes : Option String)
    (discount_amount tax_amount commission_rate : Money) : Sale :=
  { id := 0
    client_id := client_id
    employee_id := employee_id
    vehicle_id := vehicle_id
    total_amount := total_amount
    payment_method := payment_method
    status := "Pendente"
    sale_date := sale_date
    notes := notes
    discount_amount := discount_amount
    tax_amount := tax_amount
    commission_rate := commission_rate
    commission_amount := commissionOf total_amount commission_rate }

/-- Modelled from the spec: `Sale.calculate_final_amount` of the absent
`sale_model.py`, `final_amount = total_amount - discount_amount + tax_amount`. -/
def Sale.calculate_final_amount (s : Sale) : Money :=
  s.total_amount - s.discount_amount + s.tax_amount

/-- The partial-update request of `sale_dto.py` (`UpdateSaleRequest`):
every field optional. -/
structure UpdateSaleRequest where
  total_amount : Option Money := none
  payment_method : Option String := none
  status : Option String := none
  sale_date : Option Int := none
  notes : Option String := none
  discount_amount : Option Money := none
  tax_amount : Option Money := none
  commission_rate : Option Money := none
deriving DecidableEq

/-- Modelled from the spec: `Sale.update_fields` of the absent
`sale_model.py`: applies the supplied partial fields and recomputes the
derived commission_amount (derived values are never independently
settable). -/
def Sale.update_fields (s : Sale) (r : UpdateSaleRequest) : Sale :=
  let total := r.total_amount.getD s.total_amount
  let rate := r.commission_rate.getD s.commission_rate
  { s with
    total_amount := total
    payment_method := r.payment_method.getD s.payment_method
    status := r.status.getD s.status
    sale_date := r.sale_date.getD s.sale_date
    notes := match r.notes with | none => s.notes | some n => some n
    discount_amount := r.discount_amount.getD s.discount_amount
    tax_amount := r.tax_amount.getD s.tax_amount
    commission_rate := rate
    commission_amount := commissionOf total rate }

/-- The creation request of `sale_dto.py` (`CreateSaleRequest`). The DTO
declares `total_amount` with `gt=0`, `discount_amount`, `tax_amount` and
`commission_rate` with `ge=0` and default `Decimal(0)`. -/
structure CreateSaleRequest where
  client_id : Nat
  employee_id : Nat
  vehicle_id : Nat
  total_amount : Money
  payment_method : String
  sale_date : Int
  notes : Option String := none
  discount_amount : Option Money := none
  tax_amount : Option Money := none
  commission_rate : Option Money := none
deriving DecidableEq

/-- The amount- and status-carrying fields of the `SaleResponse` DTO (the
client, employee and vehicle summaries carry no sale data). -/
structure SaleResponse where
  id : Nat
  total_amount : Money
  payment_method : String
  status : String
  discount_amount : Money
  tax_amount : Money
  commission_rate : Money
  commission_amount : Money
  final_amount : Money
deriving DecidableEq

/-- Embeds `SaleService._convert_to_sale_response`:
`commission_amount := sale.commission_amount` and
`final_amount := sale.calculate_final_amount()`. -/
def convert_to_sale_response (s : Sale) : SaleResponse :=
  { id := s.id
    total_amount := s.total_amount
    payment_method := s.payment_method
    status := s.status
    discount_amount := s.discount_amount
    tax_amount := s.tax_amount
    commission_rate := s.commission_rate
    commission_amount := s.commission_amount
    final_amount := s.calculate_final_amount }

/-- Error outcomes surfaced by the sale service: a `ValueError`
(surfaced as a client error, InvalidArgument) or a generic `Exception`
(surfaced as an internal error). `NotFound` is represented by the
service returning `none`, as in the source. -/
inductive SaleError where
  | invalidArgument
  | internal
deriving DecidableEq

/-- The sales table plus the auto-increment counter of the database. -/
structure SalesDb where
  sales : List Sale := []
  nextId : Nat := 1
deriving DecidableEq

/-- Embeds `SaleRepositoryImpl.create_sale`: inserts the row; the database
assigns the next auto-increment id. -/
def SaleRepository.create_sale (db : SalesDb) (s : Sale) : SalesDb × Sale :=
  let s' := { s with id := db.nextId }
  ({ sales := db.sales ++ [s'], nextId := db.nextId + 1 }, s')

/-- Embeds `SaleRepositoryImpl.get_sale_by_id`: first row with the id. -/
def SaleRepository.get_sale_by_id (db : SalesDb) (sale_id : Nat) : Option Sale :=
  db.sales.find? (fun t => t.id == sale_id)

/-- Embeds `SaleRepositoryImpl.update_sale`: overwrites the row with the
given id with the (fully populated) entity passed by the service. -/
def SaleRepository.update_sale (db : SalesDb) (sale_id : Nat) (s : Sale) : SalesDb :=
  { db with sales := db.sales.map (fun t => if t.id == sale_id then s else t) }

/-- Embeds `SaleRepositoryImpl.update_sale_status`: sets only the status
column on the row with the given id, then re-reads the row. -/
def SaleRepository.update_sale_status (db : SalesDb) (sale_id : Nat) (status : String) :
    SalesDb × Option Sale :=
  match db.sales.find? (fun t => t.id == sale_id) with
  | none => (db, none)
  | some _ =>
    let sales' := db.sales.map (fun u => if u.id == sale_id then { u with status := status } else u)
    ({ db with sales := sales' }, sales'.find? (fun t => t.id == sale_id))

/-- Embeds `SaleService.create_sale`: validates the payment method and the
discount-vs-total rule (with Python truthiness on the optional discount),
then persists `Sale.create_sale(...)` with the falsy optional amounts
defaulted to zero. -/
def SaleService.create_sale (db : SalesDb) (req : CreateSaleRequest) :
    SalesDb × Except SaleError SaleResponse :=
  if ¬ Sale.is_valid_payment_method req.payment_method then
    (db, .error .invalidArgument)
  else if qTruthy req.discount_amount ∧ req.discount_amount.getD 0 > req.total_amount then
    (db, .error .invalidArgument)
  else
    let sale := Sale.create_sale req.client_id req.employee_id req.vehicle_id req.total_amount
      req.payment_method req.sale_date req.notes
      (qOr req.discount_amount 0) (qOr req.tax_amount 0) (qOr req.commission_rate 0)
    let step := SaleRepository.create_sale db sale
    (step.1, .ok (convert_to_sale_response step.2))

/-- Embeds `SaleService.update_sale`: looks the sale up (absent ↦ `none`),
re-validates payment method and status when truthy, validates the
discount-vs-total rule on the Python-`or`-merged values, then persists
`existing.update_fields(request)`. -/
def SaleService.update_sale (db : SalesDb) (sale_id : Nat) (req : UpdateSaleRequest) :
    SalesDb × Except SaleError (Option SaleResponse) :=
  match db.sales.find? (fun t => t.id == sale_id) with
  | none => (db, .ok none)
  | some existing =>
    if strTruthy req.payment_method ∧
        ¬ Sale.is_valid_payment_method (req.payment_method.getD "") then
      (db, .error .invalidArgument)
    else if strTruthy req.status ∧ ¬ Sale.is_valid_status (req.status.getD "") then
      (db, .error .invalidArgument)
    else
      if qOr req.discount_amount existing.discount_amount >
          qOr req.total_amount existing.total_amount then
        (db, .error .invalidArgument)
      else
        (SaleRepository.update_sale db sale_id (existing.update_fields req),
          .ok (some (convert_to_sale_response (existing.update_fields req))))

/-! ## Vehicle status cascade on sale confirmation -/

/-- A row of the shared `motor_vehicles` base table, restricted to the
columns the cascade touches. -/
structure MotorVehicleRow where
  id : Nat
  status : String
deriving DecidableEq

/-- The `MotorVehicle` class in `motor_vehicle_model.py` defines no
`STATUS_VENDIDO` attribute (the file declares only columns, `__init__` and
`__repr__`), so evaluating `MotorVehicle.STATUS_VENDIDO` raises
`AttributeError`. The absent attribute is embedded as `none`. -/
def MotorVehicle.STATUS_VENDIDO : Option String := none

/-- Embeds `CarRepositoryImpl.update_vehicle_status`: updates the
`motor_vehicles` row with the given id (the query is on the base table,
not restricted to cars); `False` when no such row exists. -/
def CarRepository.update_vehicle_status (mvs : List MotorVehicleRow) (vehicle_id : Nat)
    (status : String) : List MotorVehicleRow × Bool :=
  match mvs.find? (fun v => v.id == vehicle_id) with
  | none => (mvs, false)
  | some _ =>
    (mvs.map (fun v => if v.id == vehicle_id then { v with status := status } else v), true)

/-- Embeds `MotorcycleRepositoryImpl.update_vehicle_status`: the same
query on the `motor_vehicles` base table. -/
def MotorcycleRepository.update_vehicle_status (mvs : List MotorVehicleRow) (vehicle_id : Nat)
    (status : String) : List MotorVehicleRow × Bool :=
  match mvs.find? (fun v => v.id == vehicle_id) with
  | none => (mvs, false)
  | some _ =>
    (mvs.map (fun v => if v.id == vehicle_id then { v with status := status } else v), true)

/-- Embeds `SaleService.update_sale_status`. The third component records
which vehicle collaborators were invoked, in order. On the Confirmada
branch the service evaluates `MotorVehicle.STATUS_VENDIDO`; since that
attribute is absent the lookup raises `AttributeError`, which the generic
`except Exception` handler re-raises as an internal error — after the sale
status was already persisted by the repository. -/
def SaleService.update_sale_status (db : SalesDb) (mvs : List MotorVehicleRow)
    (sale_id : Nat) (status : String) :
    SalesDb × List MotorVehicleRow × List String × Except SaleError (Option SaleResponse) :=
  if ¬ Sale.is_valid_status status then (db, mvs, [], .error .invalidArgument)
  else
    match db.sales.find? (fun t => t.id == sale_id) with
    | none => (db, mvs, [], .ok none)
    | some existing =>
      let step := SaleRepository.update_sale_status db sale_id status
      match step.2 with
      | none => (step.1, mvs, [], .ok none)
      | some updated =>
        if status = Sale.STATUS_CONFIRMADA then
          match MotorVehicle.STATUS_VENDIDO with
          | none => (step.1, mvs, [], .error .internal)
          | some vendido =>
            let car := CarRepository.update_vehicle_status mvs existing.vehicle_id vendido
            if car.2 then
              (step.1, car.1, ["car"], .ok (some (convert_to_sale_response updated)))
            else
              let moto := MotorcycleRepository.update_vehicle_status car.1
                existing.vehicle_id vendido
              (step.1, moto.1, ["car", "motorcycle"],
                .ok (some (convert_to_sale_response updated)))
        else (step.1, mvs, [], .ok (some (convert_to_sale_response updated)))

/-! ## Sale listing filters -/

/-- The repository query selected by `SaleService.get_sales_with_filters`. -/
inductive SaleFilter where
  | dateRange (start_date end_date : Int)
  | byClient (client_id : Nat)
  | byEmployee (employee_id : Nat)
  | byStatus (status : String)
  | byPayment (payment_method : String)
  | all
deriving DecidableEq

/-- Embeds the filter dispatch of `SaleService.get_sales_with_filters`:
the chain `if start_date and end_date / elif client_id / elif employee_id /
elif status / elif payment_method / else`, with Python truthiness on each
test. -/
def SaleService.get_sales_with_filters (client_id employee_id : Option Nat)
    (status payment_method : Option String) (start_date end_date : Option Int) : SaleFilter :=
  match start_date, end_date with
  | some s, some e => .dateRange s e
  | _, _ =>
    if natTruthy client_id then .byClient (client_id.getD 0)
    else if natTruthy employee_id then .byEmployee (employee_id.getD 0)
    else if strTruthy status then .byStatus (status.getD "")
    else if strTruthy payment_method then .byPayment (payment_method.getD "")
    else .all

/-- The filter choice stated by the claim, in the words of the claim: each
filter is *present* exactly when its request field is supplied, and the
highest-priority present filter (date-range over client over employee over
status over payment-method) is applied alone. -/
def claimAppliedFilter (client_id employee_id : Option Nat)
    (status payment_method : Option String) (start_date end_date : Option Int) : SaleFilter :=
  match start_date, end_date, client_id, employee_id, status, payment_method with
  | some s, some e, _, _, _, _ => .dateRange s e
  | _, _, some c, _, _, _ => .byClient c
  | _, _, none, some em, _, _ => .byEmployee em
  | _, _, none, none, some st, _ => .byStatus st
  | _, _, none, none, none, some pm => .byPayment pm
  | _, _, none, none, none, none => .all

/-- The candidate filters that are *truthily present* in a request, in
priority order (amended claim: a filter counts as present only when its
value is truthy — a non-zero id, a non-empty string, and both dates for
the date range). -/
def presentFilters (client_id employee_id : Option Nat)
    (status payment_method : Option String) (start_date end_date : Option Int) :
    List SaleFilter :=
  (match start_date, end_date with
    | some s, some e => [SaleFilter.dateRange s e]
    | _, _ => []) ++
  (match client_id with
    | some c => if c ≠ 0 then [SaleFilter.byClient c] else []
    | none => []) ++
  (match employee_id with
    | some em => if em ≠ 0 then [SaleFilter.byEmployee em] else []
    | none => []) ++
  (match status with
    | some st => if st ≠ "" then [SaleFilter.byStatus st] else []
    | none => []) ++
  (match payment_method with
    | some pm => if pm ≠ "" then [SaleFilter.byPayment pm] else []
    | none => [])

/-- The filter choice of the amended claim: the first (highest-priority)
truthily present filter, or no filter at all. -/
def specAppliedFilter (client_id employee_id : Option Nat)
    (status payment_method : Option String) (start_date end_date : Option Int) : SaleFilter :=
  (presentFilters client_id employee_id status payment_method start_date end_date).headD .all

/-! ## Image manager: data model and repository -/

/-- A row of the `vehicle_images` table, restricted to the columns the
ordering and primary-flag logic touches (filenames and storage paths are
collaborator concerns). -/
structure VehicleImage where
  id : Nat
  vehicle_id : Nat
  position : Nat
  is_primary : Bool
deriving DecidableEq

/-- An uploaded file, reduced to what `_validate_file` inspects: whether
its extension is in the allow-list, and its byte size. -/
structure UploadFile where
  extension_ok : Bool
  size : Nat
deriving DecidableEq

/-- `VehicleImageService.MAX_IMAGES_PER_VEHICLE`. -/
def MAX_IMAGES_PER_VEHICLE : Nat := 10

/-- `VehicleImageService.MIN_IMAGES_PER_VEHICLE`. -/
def MIN_IMAGES_PER_VEHICLE : Nat := 1

/-- `VehicleImageService.MAX_FILE_SIZE` (10 MiB). -/
def MAX_FILE_SIZE : Nat := 10 * 1024 * 1024

/-- Embeds `VehicleImageService._validate_file`: the file passes when its
extension is allowed and its size does not exceed `MAX_FILE_SIZE`
(each violation raises InvalidArgument in the source). -/
def validate_file (f : UploadFile) : Bool :=
  f.extension_ok && f.size ≤ MAX_FILE_SIZE

/-- The `vehicle_images` table plus the auto-increment counter. -/
structure ImageDb where
  images : List VehicleImage := []
  nextId : Nat := 1
deriving DecidableEq

/-- Ordering of image rows by the `position` column. -/
def posLe (a b : VehicleImage) : Prop := a.position ≤ b.position

instance : DecidableRel posLe := fun a b => Nat.decLe a.position b.position

instance : IsTotal VehicleImage posLe := ⟨fun a b => Nat.le_total a.position b.position⟩

instance : IsTrans VehicleImage posLe := ⟨fun _ _ _ h h2 => Nat.le_trans h h2⟩

/-- Strict ordering of image rows by the `position` column. -/
def posLt (a b : VehicleImage) : Prop := a.position < b.position

instance : IsAntisymm VehicleImage posLt :=
  ⟨fun _ _ h h2 => absurd (Nat.lt_trans h h2) (Nat.lt_irrefl _)⟩

/-- Embeds `VehicleImageRepositoryImpl.count_by_vehicle_id`. -/
def ImageRepo.count_by_vehicle_id (db : ImageDb) (vid : Nat) : Nat :=
  (db.images.filter (fun i => i.vehicle_id == vid)).length

/-- Embeds `VehicleImageRepositoryImpl.find_by_vehicle_id`: all images of
the vehicle, ordered by the `position` column (ascending). -/
def ImageRepo.find_by_vehicle_id (db : ImageDb) (vid : Nat) : List VehicleImage :=
  List.insertionSort posLe (db.images.filter (fun i => i.vehicle_id == vid))

/-- Embeds `VehicleImageRepositoryImpl.find_by_id`. -/
def ImageRepo.find_by_id (db : ImageDb) (image_id : Nat) : Option VehicleImage :=
  db.images.find? (fun i => i.id == image_id)

/-- Embeds `VehicleImageRepositoryImpl.create`: inserts the row; the
database assigns the next auto-increment id. -/
def ImageRepo.create (db : ImageDb) (img : VehicleImage) : ImageDb × VehicleImage :=
  let img' := { img with id := db.nextId }
  ({ images := db.images ++ [img'], nextId := db.nextId + 1 }, img')

/-- Embeds `VehicleImageRepositoryImpl.delete_by_id`: deletes the first
row with the id; `False` when absent. -/
def ImageRepo.delete_by_id (db : ImageDb) (image_id : Nat) : ImageDb × Bool :=
  match db.images.find? (fun i => i.id == image_id) with
  | none => (db, false)
  | some _ => ({ db with images := db.images.eraseP (fun i => i.id == image_id) }, true)

/-- Embeds `VehicleImageRepositoryImpl.update_positions`: one UPDATE per
`(image_id, new_position)` pair, each keyed on both the image id and the
vehicle id. -/
def ImageRepo.update_positions (db : ImageDb) (vid : Nat) (ps : List (Nat × Nat)) : ImageDb :=
  { db with
    images := ps.foldl (fun imgs p =>
      imgs.map (fun i =>
        if i.id == p.1 && i.vehicle_id == vid then { i with position := p.2 } else i)) db.images }

/-- Embeds `VehicleImageRepositoryImpl.set_primary_image`: clears
`is_primary` on every image of the vehicle, then sets it on the row
matching both the image id and the vehicle id; returns whether that
second UPDATE matched any row. -/
def ImageRepo.set_primary_image (db : ImageDb) (vid image_id : Nat) : ImageDb × Bool :=
  let cleared := db.images.map (fun i =>
    if i.vehicle_id == vid then { i with is_primary := false } else i)
  let flagged := cleared.map (fun i =>
    if i.id == image_id && i.vehicle_id == vid then { i with is_primary := true } else i)
  ({ db with images := flagged },
    cleared.any (fun i => i.id == image_id && i.vehicle_id == vid))

/-! ## Image manager: service operations -/

/-- Error outcomes of the image service (`HTTPException` status 400 and
404 in the source). -/
inductive ImgError where
  | invalidArgument
  | notFound
deriving DecidableEq

/-- The position/primary data of one `ImageUploadResponse`. -/
structure ImageUploadResult where
  id : Nat
  position : Nat
  is_primary : Bool
deriving DecidableEq

/-- The per-file loop of `VehicleImageService.upload_images`: validate,
store, create the row at `position = current_count + index + 1`, with
`is_primary` exactly for the first file when the vehicle had no images.
A validation failure aborts the loop (files already processed stay
persisted). -/
def uploadLoop (db : ImageDb) (vid current_count : Nat) :
    List UploadFile → Nat → List ImageUploadResult →
    ImageDb × Except ImgError (List ImageUploadResult)
  | [], _, acc => (db, .ok acc.reverse)
  | f :: rest, i, acc =>
    if ¬ validate_file f then (db, .error .invalidArgument)
    else
      let position := current_count + i + 1
      let prim := current_count == 0 && i == 0
      let step := ImageRepo.create db
        { id := 0, vehicle_id := vid, position := position, is_primary := prim }
      uploadLoop step.1 vid current_count rest (i + 1)
        ({ id := step.2.id, position := position, is_primary := prim } :: acc)

/-- Embeds `VehicleImageService.upload_images`: rejects the batch when
`current_count + len(files) > MAX_IMAGES_PER_VEHICLE`, otherwise runs the
per-file loop. -/
def VehicleImageService.upload_images (db : ImageDb) (vehicle_id : Nat)
    (files : List UploadFile) : ImageDb × Except ImgError (List ImageUploadResult) :=
  let current_count := ImageRepo.count_by_vehicle_id db vehicle_id
  if current_count + files.length > MAX_IMAGES_PER_VEHICLE then
    (db, .error .invalidArgument)
  else uploadLoop db vehicle_id current_count files 0 []

/-- The reorder pairs computed by `_reorder_after_deletion`: walking the
remaining images in position order with a counter starting at 1,
collecting `(image_id, new_position)` for every image whose position
differs from the counter. -/
def reorderUpdates : List VehicleImage → Nat → List (Nat × Nat)
  | [], _ => []
  | img :: rest, p =>
    if img.position ≠ p then (img.id, p) :: reorderUpdates rest (p + 1)
    else reorderUpdates rest (p + 1)

/-- Python `min(images, key=position)` on a non-empty list: the first
image with the minimal position. -/
def minByPos (x : VehicleImage) (l : List VehicleImage) : VehicleImage :=
  l.foldl (fun acc y => if y.position < acc.position then y else acc) x

/-- Embeds `VehicleImageService._reorder_after_deletion`: compacts the
positions of the remaining images of the vehicle into 1..N (skipping the
repository call when no position changes), and, when the deleted image
was primary, promotes the remaining image with the minimal position. -/
def VehicleImageService.reorder_after_deletion (db : ImageDb) (vid : Nat)
    (deleted_was_primary : Bool) : ImageDb :=
  let remaining := ImageRepo.find_by_vehicle_id db vid
  let updates := reorderUpdates remaining 1
  let db1 := if updates.isEmpty then db else ImageRepo.update_positions db vid updates
  if deleted_was_primary then
    match remaining with
    | [] => db1
    | x :: xs => (ImageRepo.set_primary_image db1 vid (minByPos x xs).id).1
  else db1

/-- Embeds `VehicleImageService.delete_image`: absent image ↦ NotFound;
refuses to drop the vehicle to fewer than `MIN_IMAGES_PER_VEHICLE`
images; otherwise deletes the row and reorders. -/
def VehicleImageService.delete_image (db : ImageDb) (image_id : Nat) :
    ImageDb × Except ImgError Bool :=
  match ImageRepo.find_by_id db image_id with
  | none => (db, .error .notFound)
  | some image =>
    if ImageRepo.count_by_vehicle_id db image.vehicle_id ≤ MIN_IMAGES_PER_VEHICLE then
      (db, .error .invalidArgument)
    else
      let step := ImageRepo.delete_by_id db image_id
      if step.2 then
        (VehicleImageService.reorder_after_deletion step.1 image.vehicle_id image.is_primary,
          .ok true)
      else (step.1, .ok false)

/-- Embeds `VehicleImageService.set_primary_image`: delegates to the
repository unchanged. -/
def VehicleImageService.set_primary_image (db : ImageDb) (vid image_id : Nat) :
    ImageDb × Bool :=
  ImageRepo.set_primary_image db vid image_id

/-! ## Message tracker -/

/-- The `MessageStatus` enum of `message_model.py`. -/
inductive MessageStatus where
  | pending
  | contactInitiated
  | finished
  | cancelled
deriving DecidableEq

/-- The string value of each `MessageStatus` member. -/
def MessageStatus.value : MessageStatus → String
  | .pending => "Pendente"
  | .contactInitiated => "Contato iniciado"
  | .finished => "Finalizado"
  | .cancelled => "Cancelado"

/-- A row of the `messages` table, restricted to the columns the state
machine touches (sender contact data is free text). -/
structure Message where
  id : Nat
  responsible_id : Option Nat
  vehicle_id : Option Nat
  status : String
  service_start_time : Option Int
deriving DecidableEq

/-- Error outcomes of the message service: the absent-message
`ValueError` (NotFound) and the already-assigned `ValueError`
(InvalidState). -/
inductive MsgError where
  | notFound
  | invalidState
deriving DecidableEq

/-- The update dictionary passed to `MessageRepository.update_by_id`:
present keys are applied, absent keys leave the column unchanged. -/
structure MessageUpdate where
  responsible_id : Option Nat := none
  service_start_time : Option Int := none
  status : Option String := none
deriving DecidableEq

/-- Applies an update dictionary to a message row. -/
def applyMessageUpdate (m : Message) (u : MessageUpdate) : Message :=
  { m with
    responsible_id := match u.responsible_id with | none => m.responsible_id | some r => some r
    service_start_time :=
      match u.service_start_time with | none => m.service_start_time | some t => some t
    status := u.status.getD m.status }

/-- Embeds `MessageRepositoryImpl.find_by_id`. -/
def MessageRepo.find_by_id (db : List Message) (message_id : Nat) : Option Message :=
  db.find? (fun m => m.id == message_id)

/-- Embeds `MessageRepositoryImpl.update_by_id`: applies the update
dictionary to the row with the given id and returns the updated row
(`none` when the row is absent). -/
def MessageRepo.update_by_id (db : List Message) (message_id : Nat) (u : MessageUpdate) :
    List Message × Option Message :=
  match db.find? (fun m => m.id == message_id) with
  | none => (db, none)
  | some m =>
    (db.map (fun t => if t.id == message_id then applyMessageUpdate t u else t),
      some (applyMessageUpdate m u))

/-- Embeds `MessageService.start_service`: absent message ↦ NotFound;
a message that already has a responsible party ↦ InvalidState; otherwise
sets `responsible_id`, `service_start_time = now` and
`status = Contato iniciado`. -/
def MessageService.start_service (db : List Message) (message_id responsible_id : Nat)
    (now : Int) : List Message × Except MsgError Message :=
  match MessageRepo.find_by_id db message_id with
  | none => (db, .error .notFound)
  | some m =>
    if m.responsible_id.isSome then (db, .error .invalidState)
    else
      let step := MessageRepo.update_by_id db message_id
        { responsible_id := some responsible_id
          service_start_time := some now
          status := some MessageStatus.contactInitiated.value }
      match step.2 with
      | none => (step.1, .error .notFound)
      | some u => (step.1, .ok u)

/-- Embeds `MessageService.update_status`: absent message ↦ NotFound;
otherwise sets the status unconditionally (the request DTO carries a
`MessageStatus` member, so any of the four states can be set from any
state). -/
def MessageService.update_status (db : List Message) (message_id : Nat)
    (status : MessageStatus) : List Message × Except MsgError Message :=
  match MessageRepo.find_by_id db message_id with
  | none => (db, .error .notFound)
  | some _ =>
    let step := MessageRepo.update_by_id db message_id { status := some status.value }
    match step.2 with
    | none => (step.1, .error .notFound)
    | some u => (step.1, .ok u)

/-! ## Identity and access: logout and token validation -/

/-- The decoded claims of a JWT: subject (the user id as a decimal
string), email, role, token id (jti) and expiry timestamp. -/
structure TokenPayload where
  sub : Option String
  email : Option String
  role : Option String
  jti : Option String
  exp : Option Int
deriving DecidableEq

/-- A presented token: either well-formed (valid signature, not yet
expired, so `jwt.decode` yields its payload) or malformed (bad format,
bad signature or already expired, so `jwt.decode` raises `PyJWTError`). -/
inductive Token where
  | malformed
  | wellFormed (payload : TokenPayload)
deriving DecidableEq

/-- Embeds `jwt.decode(token, SECRET_KEY, ...)` with signature and expiry
verification. -/
def jwt_decode : Token → Option TokenPayload
  | .malformed => none
  | .wellFormed p => some p

/-- A row of the `blacklisted_tokens` table (`BlacklistedToken` entity):
token id, owning user and natural expiry. -/
structure BlacklistedToken where
  jti : String
  user_id : Nat
  expires_at : Int
deriving DecidableEq

/-- Embeds `BlacklistedTokenRepositoryImpl.is_token_blacklisted`:
existence check by jti. -/
def BlacklistRepo.is_token_blacklisted (bl : List BlacklistedToken) (jti : String) : Bool :=
  bl.any (fun b => b.jti == jti)

/-- The `TokenDataDto` produced by a successful validation. -/
structure TokenDataDto where
  user_id : String
  email : String
  role : Option String
deriving DecidableEq

/-- Embeds Python `int(...)` on the subject claim (a non-negative decimal
string, as produced at login by `str(user.id)`): the parsed number, or
`none` (an exception) for a non-numeric string. -/
def decimalToNat? (s : String) : Option Nat :=
  if s.data ≠ [] ∧ s.data.all (fun c => c.isDigit) then
    some (s.data.foldl (fun n c => n * 10 + (c.toNat - 48)) 0)
  else none

/-- Error outcomes of `UserService.logout`: `ValueError` (InvalidArgument)
for an undecodable token or missing claims, generic `Exception`
(internal) otherwise. -/
inductive AuthError where
  | invalidArgument
  | internal
deriving DecidableEq

/-- Embeds `UserService.logout`: decodes the token (failure ↦
InvalidArgument, nothing revoked), requires truthy jti/sub/exp claims
(failure ↦ InvalidArgument, nothing revoked), converts the subject to an
integer, and inserts the jti, owning user and expiry into the revocation
store. -/
def UserService.logout (bl : List BlacklistedToken) (t : Token) :
    List BlacklistedToken × Except AuthError Bool :=
  match jwt_decode t with
  | none => (bl, .error .invalidArgument)
  | some p =>
    if ¬ strTruthy p.jti ∨ ¬ strTruthy p.sub ∨ ¬ intTruthy p.exp then
      (bl, .error .invalidArgument)
    else
      match decimalToNat? (p.sub.getD "") with
      | none => (bl, .error .internal)
      | some uid =>
        (bl ++ [{ jti := p.jti.getD "", user_id := uid, expires_at := p.exp.getD 0 }],
          .ok true)

/-- Embeds `UserService._verify_token`: decodes the token, requires the
sub, email and jti claims to be present (`is None` checks), and rejects
the token when its jti is in the revocation store. -/
def UserService.verify_token (bl : List BlacklistedToken) (t : Token) : Option TokenDataDto :=
  match jwt_decode t with
  | none => none
  | some p =>
    match p.sub, p.email, p.jti with
    | some uid, some em, some j =>
      if BlacklistRepo.is_token_blacklisted bl j then none
      else some { user_id := uid, email := em, role := p.role }
    | _, _, _ => none

/-! ## Specification helpers for the image manager proofs -/

/-- The rows `upload_images` creates for a batch of (valid) files:
file `i` gets `position = current_count + i + 1`, and is primary exactly
when the vehicle had no images and it is the first file. -/
def expectedImages (vid current_count nid i : Nat) : List UploadFile → List VehicleImage
  | [] => []
  | _ :: rest =>
    { id := nid, vehicle_id := vid, position := current_count + i + 1,
      is_primary := current_count == 0 && i == 0 } ::
      expectedImages vid current_count (nid + 1) (i + 1) rest

/-- The upload-response data of a created row. -/
def toUploadResult (img : VehicleImage) : ImageUploadResult :=
  { id := img.id, position := img.position, is_primary := img.is_primary }

/-- Re-stamps a list of images with consecutive positions starting at
`p` — the intended outcome of position compaction. -/
def stampPositions : List VehicleImage → Nat → List VehicleImage
  | [], _ => []
  | x :: xs, p => { x with position := p } :: stampPositions xs (p + 1)

/-- The effect of one position-UPDATE sequence on a single row of the
vehicle: the new position of the row is looked up among the pairs (rows of
other vehicles are untouched). -/
def applyPositionLookup (vid : Nat) (ps : List (Nat × Nat)) (i : VehicleImage) : VehicleImage :=
  if i.vehicle_id == vid then { i with position := (ps.lookup i.id).getD i.position } else i

/-- The combined effect of the clear-all-then-set-one primary UPDATE pair
on a single row: on the rows of the vehicle the primary flag becomes "is this
the target image", other rows are untouched. -/
def applyPrimaryFlag (vid image_id : Nat) (i : VehicleImage) : VehicleImage :=
  if i.vehicle_id == vid then { i with is_primary := i.id == image_id } else i

/-! ## Decidability of result comparisons -/

instance {ε α : Type} [DecidableEq ε] [DecidableEq α] : DecidableEq (Except ε α) := fun x y =>
  match x, y with
  | .ok a, .ok b =>
    if h : a = b then .isTrue (by rw [h]) else .isFalse (by simp [h])
  | .error a, .error b =>
    if h : a = b then .isTrue (by rw [h]) else .isFalse (by simp [h])
  | .ok _, .error _ => .isFalse (by simp)
  | .error _, .ok _ => .isFalse (by simp)

/-! ## Concrete fixtures used by the witnesses and counterexamples -/

/-- An empty sales store. -/
def exDb0 : SalesDb := {}

/-- A well-formed creation request. -/
def exCreateReq : CreateSaleRequest :=
  { client_id := 1, employee_id := 1, vehicle_id := 1, total_amount := 100,
    payment_method := "PIX", sale_date := 0 }

/-- The response produced for `exCreateReq` on the empty store. -/
def exResp : SaleResponse :=
  ((SaleService.create_sale exDb0 exCreateReq).2).toOption.getD
    ⟨0, 0, "", "", 0, 0, 0, 0, 0⟩

/-- The store after creating `exCreateReq` on the empty store. -/
def exDb1 : SalesDb := (SaleService.create_sale exDb0 exCreateReq).1

/-- A creation request whose discount exceeds its total. -/
def exBadReq : CreateSaleRequest :=
  { client_id := 1, employee_id := 1, vehicle_id := 1, total_amount := 100,
    payment_method := "PIX", sale_date := 0, discount_amount := some 200 }

/-- An existing sale with `total_amount = 100` and `discount_amount = 50`. -/
def exSaleC3 : Sale :=
  { id := 1, client_id := 1, employee_id := 1, vehicle_id := 1, total_amount := 100,
    payment_method := "PIX", status := "Pendente", sale_date := 0, notes := none,
    discount_amount := 50, tax_amount := 0, commission_rate := 0, commission_amount := 0 }

/-- A store holding only `exSaleC3`. -/
def exDbC3 : SalesDb := { sales := [exSaleC3], nextId := 2 }

/-- A partial update that lowers the total to 30 and supplies a zero
discount. -/
def exReqC3 : UpdateSaleRequest := { total_amount := some 30, discount_amount := some 0 }

/-- A partial update that only sets the status to Paga. -/
def exReqC3b : UpdateSaleRequest := { status := some "Paga" }

/-- An existing sale on vehicle 5. -/
def exSaleC4 : Sale :=
  { id := 1, client_id := 1, employee_id := 1, vehicle_id := 5, total_amount := 85000,
    payment_method := "Financiamento", status := "Pendente", sale_date := 0, notes := none,
    discount_amount := 0, tax_amount := 0, commission_rate := 0, commission_amount := 0 }

/-- A store holding only `exSaleC4`. -/
def exDbC4 : SalesDb := { sales := [exSaleC4], nextId := 2 }

/-- The motor-vehicles table holding the active vehicle 5. -/
def exMvsC4 : List MotorVehicleRow := [{ id := 5, status := "Ativo" }]

/-- A valid upload file. -/
def exFileOk : UploadFile := { extension_ok := true, size := 100 }

/-- An image store in which vehicle 7 already holds ten images. -/
def exImgDb10 : ImageDb :=
  { images := [
      { id := 1, vehicle_id := 7, position := 1, is_primary := true },
      { id := 2, vehicle_id := 7, position := 2, is_primary := false },
      { id := 3, vehicle_id := 7, position := 3, is_primary := false },
      { id := 4, vehicle_id := 7, position := 4, is_primary := false },
      { id := 5, vehicle_id := 7, position := 5, is_primary := false },
      { id := 6, vehicle_id := 7, position := 6, is_primary := false },
      { id := 7, vehicle_id := 7, position := 7, is_primary := false },
      { id := 8, vehicle_id := 7, position := 8, is_primary := false },
      { id := 9, vehicle_id := 7, position := 9, is_primary := false },
      { id := 10, vehicle_id := 7, position := 10, is_primary := false }],
    nextId := 11 }

/-- A primary image at position 1 of vehicle 3. -/
def exImgA : VehicleImage := { id := 1, vehicle_id := 3, position := 1, is_primary := true }

/-- A secondary image at position 2 of vehicle 3. -/
def exImgB : VehicleImage := { id := 2, vehicle_id := 3, position := 2, is_primary := false }

/-- An image store holding the two images of vehicle 3. -/
def exImgDb : ImageDb := { images := [exImgA, exImgB], nextId := 3 }

/-- A pending message with no responsible party. -/
def exMsg : Message :=
  { id := 1, responsible_id := none, vehicle_id := none, status := "Pendente",
    service_start_time := none }

/-- A message store holding only `exMsg`. -/
def exMsgDb : List Message := [exMsg]

/-- A fully populated token payload. -/
def exPayload : TokenPayload :=
  { sub := some "1", email := some "a@b.com", role := some "Administrador",
    jti := some "jti-1", exp := some 1000 }

/-! ## Helper lemmas -/

/-- `find?` after a map that rewrites only the matching rows: the first
match is the rewritten first match, provided the rewrite preserves the
predicate. -/
theorem find?_map_branch {α : Type} (p : α → Bool) (f : α → α)
    (hf : ∀ a, p a = true → p (f a) = true) :
    ∀ l : List α, (l.map (fun u => if p u then f u else u)).find? p = (l.find? p).map f := by
  intro l
  induction l with
  | nil => rfl
  | cons x xs ih =>
    by_cases hx : p x = true
    · simp [List.find?_cons, hx, hf x hx]
    · rw [Bool.not_eq_true] at hx
      simp [List.find?_cons, hx, ih]

/-! ## C1 -/

/-- C1: for every sale response, at creation and after any update,
`final_amount = total_amount - discount_amount + tax_amount` and
`commission_amount = total_amount * commission_rate / 100`; the request
DTOs carry no `final_amount`/`commission_amount` field, so the derived
values are always computed. -/
theorem sale_derived_amounts :
    ∀ (db : SalesDb) (req : CreateSaleRequest) (sale_id : Nat) (ureq : UpdateSaleRequest),
      (∀ db2 r, SaleService.create_sale db req = (db2, .ok r) →
        r.final_amount = r.total_amount - r.discount_amount + r.tax_amount ∧
        r.commission_amount = r.total_amount * r.commission_rate / 100) ∧
      (∀ db2 r, SaleService.update_sale db sale_id ureq = (db2, .ok (some r)) →
        r.final_amount = r.total_amount - r.discount_amount + r.tax_amount ∧
        r.commission_amount = r.total_amount * r.commission_rate / 100) := by
  intro db req sale_id ureq
  constructor
  · intro db2 r h
    unfold SaleService.create_sale at h
    split at h
    · simp at h
    · split at h
      · simp at h
      · simp only [Prod.mk.injEq, Except.ok.injEq] at h
        obtain ⟨-, h2⟩ := h
        subst h2
        exact ⟨rfl, rfl⟩
  · intro db2 r h
    unfold SaleService.update_sale at h
    split at h
    · simp at h
    · split at h
      · simp at h
      · split at h
        · simp at h
        · split at h
          · simp at h
          · simp only [Prod.mk.injEq, Except.ok.injEq, Option.some.injEq] at h
            obtain ⟨-, h2⟩ := h
            subst h2
            exact ⟨rfl, rfl⟩

/-- Witness for C1 at a concrete creation. -/
theorem sale_derived_amounts_witness :
    exResp.final_amount = exResp.total_amount - exResp.discount_amount + exResp.tax_amount ∧
    exResp.commission_amount = exResp.total_amount * exResp.commission_rate / 100 :=
  (sale_derived_amounts exDb0 exCreateReq 1 {}).1 exDb1 exResp rfl

/-! ## C2 -/

/-- C2: `create_sale` fails with InvalidArgument (persisting nothing) when
the discount exceeds the total or the payment method is not in the
allow-list; otherwise it persists one sale with initial status Pendente.
The hypothesis `0 < total_amount` is the `gt=0` constraint of the DTO. -/
theorem create_sale_validation :
    ∀ (db : SalesDb) (req : CreateSaleRequest), 0 < req.total_amount →
      (∀ d, req.discount_amount = some d → req.total_amount < d →
        SaleService.create_sale db req = (db, .error .invalidArgument)) ∧
      (Sale.is_valid_payment_method req.payment_method = false →
        SaleService.create_sale db req = (db, .error .invalidArgument)) ∧
      ((Sale.is_valid_payment_method req.payment_method = true ∧
          ∀ d, req.discount_amount = some d → d ≤ req.total_amount) →
        ∃ s, SaleService.create_sale db req =
            ({ sales := db.sales ++ [s], nextId := db.nextId + 1 },
              .ok (convert_to_sale_response s)) ∧
          s.status = "Pendente") := by
  intro db req htotal
  refine ⟨?_, ?_, ?_⟩
  · intro d hd hlt
    unfold SaleService.create_sale
    split
    · rfl
    · rw [if_pos]
      refine ⟨?_, ?_⟩
      · rw [hd]
        simp only [qTruthy, bne_iff_ne, ne_eq, decide_eq_true_eq]
        exact fun h0 => absurd (h0 ▸ lt_trans htotal hlt) (lt_irrefl 0)
      · rw [hd]
        simpa using hlt
  · intro hpm
    unfold SaleService.create_sale
    rw [if_pos]
    simp [hpm]
  · rintro ⟨hpm, hd⟩
    unfold SaleService.create_sale
    rw [if_neg (by simp [hpm]), if_neg ?_]
    · exact ⟨_, rfl, rfl⟩
    · rintro ⟨ht, hgt⟩
      cases hdis : req.discount_amount with
      | none => rw [hdis] at ht; simp [qTruthy] at ht
      | some d =>
        rw [hdis] at hgt
        simp only [Option.getD_some] at hgt
        exact absurd hgt (not_lt.2 (hd d hdis))

/-- Witness for C2: the over-discounted request is rejected on a concrete
store, and a valid request persists a Pendente sale. -/
theorem create_sale_validation_witness :
    SaleService.create_sale exDb0 exBadReq = (exDb0, .error .invalidArgument) ∧
    ∃ s, SaleService.create_sale exDb0 exCreateReq =
        ({ sales := exDb0.sales ++ [s], nextId := exDb0.nextId + 1 },
          .ok (convert_to_sale_response s)) ∧
      s.status = "Pendente" :=
  ⟨(create_sale_validation exDb0 exBadReq (by decide)).1 200 rfl (by decide),
    (create_sale_validation exDb0 exCreateReq (by decide)).2.2
      ⟨by decide, fun d h => Option.noConfusion h⟩⟩

/-! ## C3 -/

/-- C3 counterexample: on a sale with total 100 and discount 50, an update
supplying total 30 and discount 0 is rejected with InvalidArgument,
although merging by plain suppliedness (request value when supplied,
existing value otherwise — the reading of the claim, with nothing else
invalid) yields discount 0 ≤ total 30, so the claim predicts success:
the service merges with Python `or`, which drops a supplied zero. -/
theorem update_sale_merge_counterexample :
    SaleService.update_sale exDbC3 1 exReqC3 = (exDbC3, .error .invalidArgument) ∧
    exReqC3.payment_method = none ∧ exReqC3.status = none ∧
    exReqC3.discount_amount.getD exSaleC3.discount_amount ≤
      exReqC3.total_amount.getD exSaleC3.total_amount :=
  ⟨rfl, rfl, rfl, by decide⟩

/-- C3 amended: `update_sale` returns `none` (NotFound) when no sale has
the id; otherwise it fails with InvalidArgument — persisting nothing —
exactly when the supplied payment method is non-empty and invalid, or the
supplied status is non-empty and invalid, or the *truthily* merged values
(request amount when supplied and non-zero, existing amount otherwise)
violate discount ≤ total; and otherwise persists the merged sale. -/
theorem update_sale_validation_amended :
    ∀ (db : SalesDb) (sale_id : Nat) (req : UpdateSaleRequest),
      (db.sales.find? (fun t => t.id == sale_id) = none →
        SaleService.update_sale db sale_id req = (db, .ok none)) ∧
      (∀ ex, db.sales.find? (fun t => t.id == sale_id) = some ex →
        (((strTruthy req.payment_method = true ∧
            Sale.is_valid_payment_method (req.payment_method.getD "") = false) ∨
          (strTruthy req.status = true ∧
            Sale.is_valid_status (req.status.getD "") = false) ∨
          qOr req.total_amount ex.total_amount <
            qOr req.discount_amount ex.discount_amount) →
          SaleService.update_sale db sale_id req = (db, .error .invalidArgument)) ∧
        (¬((strTruthy req.payment_method = true ∧
              Sale.is_valid_payment_method (req.payment_method.getD "") = false) ∨
            (strTruthy req.status = true ∧
              Sale.is_valid_status (req.status.getD "") = false) ∨
            qOr req.total_amount ex.total_amount <
              qOr req.discount_amount ex.discount_amount) →
          SaleService.update_sale db sale_id req =
            (SaleRepository.update_sale db sale_id (ex.update_fields req),
              .ok (some (convert_to_sale_response (ex.update_fields req)))))) := by
  intro db sale_id req
  constructor
  · intro h
    simp only [SaleService.update_sale, h]
  · intro ex hex
    have hbase :
        SaleService.update_sale db sale_id req =
          (if strTruthy req.payment_method ∧
              ¬ Sale.is_valid_payment_method (req.payment_method.getD "") then
            (db, .error .invalidArgument)
          else if strTruthy req.status ∧ ¬ Sale.is_valid_status (req.status.getD "") then
            (db, .error .invalidArgument)
          else
            if qOr req.discount_amount ex.discount_amount >
                qOr req.total_amount ex.total_amount then
              (db, .error .invalidArgument)
            else
              (SaleRepository.update_sale db sale_id (ex.update_fields req),
                .ok (some (convert_to_sale_response (ex.update_fields req))))) := by
      simp only [SaleService.update_sale, hex]
    constructor
    · intro hbad
      rw [hbase]
      split_ifs with hpm hst hdisc
      · rfl
      · rfl
      · rfl
      · rcases hbad with ⟨h1, h2⟩ | ⟨h1, h2⟩ | h3
        · exact absurd ⟨h1, by simp [h2]⟩ hpm
        · exact absurd ⟨h1, by simp [h2]⟩ hst
        · exact absurd h3 hdisc
    · intro hgood
      rw [hbase]
      split_ifs with hpm hst hdisc
      · exact absurd (Or.inl ⟨hpm.1, (Bool.not_eq_true _) ▸ hpm.2⟩) hgood
      · exact absurd (Or.inr (Or.inl ⟨hst.1, (Bool.not_eq_true _) ▸ hst.2⟩)) hgood
      · exact absurd (Or.inr (Or.inr hdisc)) hgood
      · rfl

/-- Witness for the amended C3 at a concrete status-only update. -/
theorem update_sale_validation_amended_witness :
    SaleService.update_sale exDbC3 1 exReqC3b =
      (SaleRepository.update_sale exDbC3 1 (exSaleC3.update_fields exReqC3b),
        .ok (some (convert_to_sale_response (exSaleC3.update_fields exReqC3b)))) :=
  ((update_sale_validation_amended exDbC3 1 exReqC3b).2 exSaleC3 rfl).2 (by decide)

/-! ## C4 -/

/-- C4 (code bug): on an existing sale, `update_sale_status` with
Confirmada persists the new sale status and then evaluates the absent
attribute `MotorVehicle.STATUS_VENDIDO`, so the call surfaces an internal
error, leaves the vehicle untouched and never reaches either vehicle
collaborator — against the spec, which says the vehicle is set to Sold
(car first, then motorcycle) and the updated sale is returned. A
non-Confirmada status succeeds, for contrast. -/
theorem update_sale_status_confirmada_internal_error :
    SaleService.update_sale_status exDbC4 exMvsC4 1 "Confirmada" =
      ({ sales := [{ exSaleC4 with status := "Confirmada" }], nextId := 2 }, exMvsC4, [],
        .error .internal) ∧
    SaleService.update_sale_status exDbC4 exMvsC4 1 "Paga" =
      ({ sales := [{ exSaleC4 with status := "Paga" }], nextId := 2 }, exMvsC4, [],
        .ok (some (convert_to_sale_response { exSaleC4 with status := "Paga" }))) :=
  ⟨rfl, rfl⟩

/-! ## C5 -/

/-- C5 counterexample: with `client_id = 0` supplied (the route declares
the parameter without a positivity bound) and `employee_id = 7`, the
service applies the employee filter, although the claim — under which the
client filter is present and of higher priority — predicts the client
filter. -/
theorem sales_filter_priority_counterexample :
    SaleService.get_sales_with_filters (some 0) (some 7) none none none none =
      SaleFilter.byEmployee 7 ∧
    claimAppliedFilter (some 0) (some 7) none none none none = SaleFilter.byClient 0 ∧
    SaleFilter.byEmployee 7 ≠ SaleFilter.byClient 0 :=
  ⟨rfl, rfl, by decide⟩

/-- C5 amended: the dispatch applies exactly the highest-priority
*truthily present* filter (non-zero ids, non-empty strings, both dates),
in the order date-range, client, employee, status, payment-method, none;
lower-priority filters in the same request are ignored. -/
theorem sales_filter_priority_amended :
    ∀ (client_id employee_id : Option Nat) (status payment_method : Option String)
      (start_date end_date : Option Int),
      SaleService.get_sales_with_filters client_id employee_id status payment_method
          start_date end_date =
        specAppliedFilter client_id employee_id status payment_method start_date end_date := by
  intro ci ei st pm sd ed
  unfold SaleService.get_sales_with_filters specAppliedFilter presentFilters
  rcases sd with _ | s <;> rcases ed with _ | e <;>
    rcases ci with _ | c <;> rcases ei with _ | em <;>
    rcases st with _ | stv <;> rcases pm with _ | pmv <;>
    simp [natTruthy, strTruthy] <;> split_ifs <;> simp_all

/-- Characterization of `ImageRepo.set_primary_image`: the two UPDATEs
amount to setting `is_primary := (id == image_id)` on the rows of the vehicle,
and the returned flag reports whether any row matched. -/
theorem set_primary_image_spec (db : ImageDb) (vid image_id : Nat) :
    (ImageRepo.set_primary_image db vid image_id).1.images =
      db.images.map (applyPrimaryFlag vid image_id) ∧
    (ImageRepo.set_primary_image db vid image_id).2 =
      db.images.any (fun i => i.id == image_id && i.vehicle_id == vid) := by
  unfold ImageRepo.set_primary_image
  constructor
  · simp only [List.map_map]
    apply List.map_congr_left
    intro i _
    by_cases hv : i.vehicle_id = vid
    · by_cases hid : i.id = image_id <;>
        simp [Function.comp, applyPrimaryFlag, hv, hid]
    · simp [Function.comp, applyPrimaryFlag, hv]
  · simp only [List.any_map]
    congr 1
    funext i
    by_cases hv : i.vehicle_id = vid <;> simp [Function.comp, hv]

/-! ## C8 -/

/-- C8: calling `set_primary_image` with an image id that does not belong
to the vehicle still clears `is_primary` on all images of the vehicle
and commits, returns `false`, and leaves the vehicle — previously holding
at least one image with exactly one primary — with zero primary images. -/
theorem set_primary_image_foreign_id (db : ImageDb) (vid image_id : Nat)
    (hforeign : ∀ i ∈ db.images, ¬(i.id = image_id ∧ i.vehicle_id = vid))
    (_hexist : 0 < (db.images.filter (fun i => i.vehicle_id == vid)).length)
    (_hone : ((db.images.filter (fun i => i.vehicle_id == vid)).filter
        (fun i => i.is_primary)).length = 1) :
    (VehicleImageService.set_primary_image db vid image_id).2 = false ∧
    (∀ i ∈ (VehicleImageService.set_primary_image db vid image_id).1.images,
      i.vehicle_id = vid → i.is_primary = false) ∧
    ((VehicleImageService.set_primary_image db vid image_id).1.images.filter
          (fun i => i.vehicle_id == vid)).length =
      (db.images.filter (fun i => i.vehicle_id == vid)).length := by
  obtain ⟨himgs, hflag⟩ := set_primary_image_spec db vid image_id
  unfold VehicleImageService.set_primary_image
  refine ⟨?_, ?_, ?_⟩
  · rw [hflag, List.any_eq_false]
    intro j hj
    simp only [Bool.and_eq_true, beq_iff_eq, not_and]
    exact fun h1 h2 => absurd ⟨h1, h2⟩ (hforeign j hj)
  · intro i hi hveh
    rw [himgs] at hi
    obtain ⟨j, hj, rfl⟩ := List.mem_map.1 hi
    by_cases hv : j.vehicle_id = vid
    · have hid : ¬ j.id = image_id := fun h => hforeign j hj ⟨h, hv⟩
      simp [applyPrimaryFlag, hv, hid]
    · exfalso
      apply hv
      revert hveh
      simp [applyPrimaryFlag, hv]
  · rw [himgs, List.filter_map, List.length_map]
    congr 1
    apply List.filter_congr
    intro j _
    by_cases hv : j.vehicle_id = vid <;> simp [Function.comp, applyPrimaryFlag, hv]

/-- Witness for C8 on a two-image vehicle and a foreign image id. -/
theorem set_primary_image_foreign_id_witness :
    (VehicleImageService.set_primary_image exImgDb 3 99).2 = false ∧
    (∀ i ∈ (VehicleImageService.set_primary_image exImgDb 3 99).1.images,
      i.vehicle_id = 3 → i.is_primary = false) ∧
    ((VehicleImageService.set_primary_image exImgDb 3 99).1.images.filter
          (fun i => i.vehicle_id == 3)).length =
      (exImgDb.images.filter (fun i => i.vehicle_id == 3)).length :=
  set_primary_image_foreign_id exImgDb 3 99 (by decide) (by decide) (by decide)

/-- `start_service` on a message that already has a responsible party
yields InvalidState. -/
theorem start_service_already_assigned {db : List Message} {mid rid : Nat} {now : Int}
    {m : Message} (hfind : MessageRepo.find_by_id db mid = some m)
    (hr : m.responsible_id.isSome = true) :
    (MessageService.start_service db mid rid now).2 = .error .invalidState := by
  simp only [MessageService.start_service, hfind]
  rw [if_pos hr]

/-! ## C9 -/

/-- C9: on an existing message, `start_service` fails with InvalidState
exactly when a responsible party is already assigned; otherwise it sets
the responsible party, the service start time and the Contato iniciado
status, after which a second `start_service` fails with InvalidState;
`update_status`, by contrast, sets any of the four states from any state. -/
theorem message_start_service_guard :
    ∀ (db : List Message) (message_id responsible_id r2 : Nat) (now n2 : Int)
      (st : MessageStatus) (m : Message),
      MessageRepo.find_by_id db message_id = some m →
      ((MessageService.start_service db message_id responsible_id now).2 =
          .error .invalidState ↔ m.responsible_id.isSome = true) ∧
      (m.responsible_id = none →
        ∃ u, MessageService.start_service db message_id responsible_id now =
            ((MessageService.start_service db message_id responsible_id now).1, .ok u) ∧
          u.responsible_id = some responsible_id ∧
          u.service_start_time = some now ∧
          u.status = MessageStatus.contactInitiated.value ∧
          (MessageService.start_service
              (MessageService.start_service db message_id responsible_id now).1
              message_id r2 n2).2 = .error .invalidState) ∧
      (∃ v, (MessageService.update_status db message_id st).2 = .ok v ∧
        v.status = st.value) := by
  intro db message_id responsible_id r2 now n2 st m hfind
  have hfind' : db.find? (fun t => t.id == message_id) = some m := hfind
  refine ⟨?_, ?_, ?_⟩
  · simp only [MessageService.start_service, hfind]
    by_cases hr : m.responsible_id.isSome
    · simp [hr]
    · rw [if_neg hr]
      simp only [MessageRepo.update_by_id, hfind']
      simp [hr]
  · intro hnone
    have hr : ¬ m.responsible_id.isSome = true := by simp [hnone]
    have hstep :
        MessageService.start_service db message_id responsible_id now =
          (db.map (fun t => if t.id == message_id then
              applyMessageUpdate t
                { responsible_id := some responsible_id
                  service_start_time := some now
                  status := some MessageStatus.contactInitiated.value } else t),
            .ok (applyMessageUpdate m
              { responsible_id := some responsible_id
                service_start_time := some now
                status := some MessageStatus.contactInitiated.value })) := by
      simp only [MessageService.start_service, hfind, if_neg hr]
      simp only [MessageRepo.update_by_id, hfind']
    refine ⟨applyMessageUpdate m
        { responsible_id := some responsible_id
          service_start_time := some now
          status := some MessageStatus.contactInitiated.value }, ?_, rfl, rfl, rfl, ?_⟩
    · rw [hstep]
    · have hfind2 :
          MessageRepo.find_by_id (MessageService.start_service db message_id
              responsible_id now).1 message_id =
            some (applyMessageUpdate m
              { responsible_id := some responsible_id
                service_start_time := some now
                status := some MessageStatus.contactInitiated.value }) := by
        rw [hstep]
        have := find?_map_branch (fun t : Message => t.id == message_id)
          (fun t => applyMessageUpdate t
            { responsible_id := some responsible_id
              service_start_time := some now
              status := some MessageStatus.contactInitiated.value })
          (fun a ha => ha) db
        simpa [MessageRepo.find_by_id, hfind'] using this
      exact start_service_already_assigned hfind2 rfl
  · simp only [MessageService.update_status, hfind]
    simp only [MessageRepo.update_by_id, hfind']
    exact ⟨_, rfl, rfl⟩

/-- Witness for C9 on a fresh pending message. -/
theorem message_start_service_guard_witness :
    ((MessageService.start_service exMsgDb 1 7 5).2 = .error .invalidState ↔
      exMsg.responsible_id.isSome = true) ∧
    (exMsg.responsible_id = none →
      ∃ u, MessageService.start_service exMsgDb 1 7 5 =
          ((MessageService.start_service exMsgDb 1 7 5).1, .ok u) ∧
        u.responsible_id = some 7 ∧
        u.service_start_time = some 5 ∧
        u.status = MessageStatus.contactInitiated.value ∧
        (MessageService.start_service (MessageService.start_service exMsgDb 1 7 5).1
            1 8 6).2 = .error .invalidState) ∧
    (∃ v, (MessageService.update_status exMsgDb 1 MessageStatus.finished).2 = .ok v ∧
      v.status = MessageStatus.finished.value) :=
  message_start_service_guard exMsgDb 1 7 8 5 6 MessageStatus.finished exMsg rfl

/-! ## C10 -/

/-- C10: logging out a well-formed token (truthy jti, subject and expiry)
inserts its jti, owning user and expiry into the revocation store and
succeeds; afterwards — against any store containing that jti — validation
of every well-formed (valid-signature, unexpired) token carrying the jti
fails; logging out a malformed token fails with InvalidArgument and
revokes nothing. -/
theorem logout_revocation :
    ∀ (bl : List BlacklistedToken) (p : TokenPayload) (j u : String) (uid : Nat) (e : Int),
      p.jti = some j → j ≠ "" → p.sub = some u → u ≠ "" → decimalToNat? u = some uid →
      p.exp = some e → e ≠ 0 →
      UserService.logout bl (.wellFormed p) =
        (bl ++ [{ jti := j, user_id := uid, expires_at := e }], .ok true) ∧
      (∀ bl2 p2, BlacklistRepo.is_token_blacklisted bl2 j = true → p2.jti = some j →
        UserService.verify_token bl2 (.wellFormed p2) = none) ∧
      BlacklistRepo.is_token_blacklisted
        (bl ++ [{ jti := j, user_id := uid, expires_at := e }]) j = true ∧
      UserService.logout bl .malformed = (bl, .error .invalidArgument) := by
  intro bl p j u uid e hj hj0 hs hs0 huid he he0
  refine ⟨?_, ?_, ?_, rfl⟩
  · simp only [UserService.logout, jwt_decode]
    rw [if_neg]
    · rw [hs]
      simp only [Option.getD_some, huid]
      rw [hj, he]
      simp
    · rw [hj, hs, he]
      simp [strTruthy, intTruthy, hj0, hs0, he0]
  · intro bl2 p2 hbl hj2
    simp only [UserService.verify_token, jwt_decode]
    rcases hsub : p2.sub with _ | v
    · rfl
    · rcases hem : p2.email with _ | em
      · rfl
      · rw [hj2]
        simp [hbl]
  · simp [BlacklistRepo.is_token_blacklisted]

/-- Witness for C10 at a concrete payload and the empty store. -/
theorem logout_revocation_witness :
    UserService.logout [] (.wellFormed exPayload) =
      ([{ jti := "jti-1", user_id := 1, expires_at := 1000 }], .ok true) ∧
    (∀ bl2 p2, BlacklistRepo.is_token_blacklisted bl2 "jti-1" = true →
      p2.jti = some "jti-1" → UserService.verify_token bl2 (.wellFormed p2) = none) ∧
    BlacklistRepo.is_token_blacklisted
      [{ jti := "jti-1", user_id := 1, expires_at := 1000 }] "jti-1" = true ∧
    UserService.logout [] .malformed = ([], .error .invalidArgument) := by
  have h := logout_revocation [] exPayload "jti-1" "1" 1 1000 rfl (by decide) rfl
    (by decide) (by decide) rfl (by decide)
  simpa using h

/-! ## C6 -/

/-- The per-file upload loop on a batch of valid files appends exactly the
expected rows and reports them. -/
theorem uploadLoop_ok (vid current_count : Nat) :
    ∀ (files : List UploadFile) (db : ImageDb) (i : Nat) (acc : List ImageUploadResult),
      (∀ f ∈ files, validate_file f = true) →
      uploadLoop db vid current_count files i acc =
        ({ images := db.images ++ expectedImages vid current_count db.nextId i files,
           nextId := db.nextId + files.length },
          .ok (acc.reverse ++
            (expectedImages vid current_count db.nextId i files).map toUploadResult)) := by
  intro files
  induction files with
  | nil =>
    intro db i acc _
    simp [uploadLoop, expectedImages]
  | cons f rest ih =>
    intro db i acc hval
    have hf : validate_file f = true := hval f (List.mem_cons_self ..)
    unfold uploadLoop
    rw [if_neg (by simp [hf])]
    rw [ih _ (i + 1) _ (fun g hg => hval g (List.mem_cons_of_mem _ hg))]
    simp only [ImageRepo.create, expectedImages, toUploadResult, Prod.mk.injEq,
      ImageDb.mk.injEq, List.reverse_cons, List.append_assoc, List.map_cons,
      List.length_cons, Except.ok.injEq]
    refine ⟨⟨by simp, by omega⟩, by simp⟩

/-- Each expected row belongs to the vehicle, sits at
`position = current_count + (i + k) + 1`, and is primary exactly when the
vehicle had no images and it is the first file of the batch. -/
theorem expectedImages_spec (vid cc : Nat) :
    ∀ (files : List UploadFile) (nid i k : Nat)
      (hk : k < (expectedImages vid cc nid i files).length),
      ((expectedImages vid cc nid i files).get ⟨k, hk⟩).vehicle_id = vid ∧
      ((expectedImages vid cc nid i files).get ⟨k, hk⟩).position = cc + (i + k) + 1 ∧
      (((expectedImages vid cc nid i files).get ⟨k, hk⟩).is_primary = true ↔
        (cc = 0 ∧ i + k = 0)) := by
  intro files
  induction files with
  | nil => intro nid i k hk; simp [expectedImages] at hk
  | cons f rest ih =>
    intro nid i k hk
    cases k with
    | zero =>
      refine ⟨rfl, rfl, ?_⟩
      show (cc == 0 && i == 0) = true ↔ _
      simp [Bool.and_eq_true]
    | succ k' =>
      have hk' : k' < (expectedImages vid cc (nid + 1) (i + 1) rest).length := by
        simpa [expectedImages] using hk
      obtain ⟨ha, hb, hc⟩ := ih (nid + 1) (i + 1) k' hk'
      refine ⟨ha, ?_, ?_⟩
      · rw [show ((expectedImages vid cc nid i (f :: rest)).get ⟨k' + 1, hk⟩) =
            ((expectedImages vid cc (nid + 1) (i + 1) rest).get ⟨k', hk'⟩) from rfl]
        rw [hb]; omega
      · rw [show ((expectedImages vid cc nid i (f :: rest)).get ⟨k' + 1, hk⟩) =
            ((expectedImages vid cc (nid + 1) (i + 1) rest).get ⟨k', hk'⟩) from rfl]
        rw [hc]
        constructor
        · rintro ⟨h1, h2⟩; exact ⟨h1, by omega⟩
        · rintro ⟨h1, h2⟩; exact ⟨h1, by omega⟩

/-- The expected rows are in bijection with the files. -/
theorem expectedImages_length (vid cc : Nat) :
    ∀ (files : List UploadFile) (nid i : Nat),
      (expectedImages vid cc nid i files).length = files.length := by
  intro files
  induction files with
  | nil => intro nid i; rfl
  | cons f rest ih => intro nid i; simp [expectedImages, ih]

/-- C6: `upload_images` rejects the batch with InvalidArgument — changing
nothing — when `current_count + len(files)` exceeds 10 (so the 11th image
of a vehicle is rejected); on a valid batch within the limit it appends
exactly the expected rows (so filling up to 10 succeeds), reporting for
the k-th file `position = current_count + k + 1` and the primary flag
exactly when the vehicle had zero images and k = 0. -/
theorem upload_images_positions :
    ∀ (db : ImageDb) (vehicle_id : Nat) (files : List UploadFile),
      (MAX_IMAGES_PER_VEHICLE < ImageRepo.count_by_vehicle_id db vehicle_id + files.length →
        VehicleImageService.upload_images db vehicle_id files =
          (db, .error .invalidArgument)) ∧
      ((∀ f ∈ files, validate_file f = true) →
        ImageRepo.count_by_vehicle_id db vehicle_id + files.length ≤ MAX_IMAGES_PER_VEHICLE →
        ∃ res, VehicleImageService.upload_images db vehicle_id files =
            ({ images := db.images ++
                expectedImages vehicle_id (ImageRepo.count_by_vehicle_id db vehicle_id)
                  db.nextId 0 files,
               nextId := db.nextId + files.length }, .ok res) ∧
          res.length = files.length ∧
          ∀ k (hk : k < res.length),
            (res.get ⟨k, hk⟩).position =
              ImageRepo.count_by_vehicle_id db vehicle_id + k + 1 ∧
            ((res.get ⟨k, hk⟩).is_primary = true ↔
              (ImageRepo.count_by_vehicle_id db vehicle_id = 0 ∧ k = 0))) := by
  intro db vid files
  constructor
  · intro h
    unfold VehicleImageService.upload_images
    rw [if_pos h]
  · intro hval hle
    unfold VehicleImageService.upload_images
    rw [if_neg (by omega)]
    rw [uploadLoop_ok vid _ files db 0 [] hval]
    refine ⟨(expectedImages vid (ImageRepo.count_by_vehicle_id db vid)
        db.nextId 0 files).map toUploadResult, by simp, ?_, ?_⟩
    · rw [List.length_map, expectedImages_length]
    · intro k hk
      rw [List.length_map] at hk
      obtain ⟨-, hb, hc⟩ := expectedImages_spec vid
        (ImageRepo.count_by_vehicle_id db vid) files db.nextId 0 k hk
      constructor
      · simp only [List.get_eq_getElem, List.getElem_map]
        simp only [List.get_eq_getElem] at hb
        rw [show (toUploadResult (expectedImages vid (ImageRepo.count_by_vehicle_id db vid)
            db.nextId 0 files)[k]).position =
          ((expectedImages vid (ImageRepo.count_by_vehicle_id db vid)
            db.nextId 0 files)[k]).position from rfl, hb]
        omega
      · simp only [List.get_eq_getElem, List.getElem_map]
        simp only [List.get_eq_getElem] at hc
        rw [show (toUploadResult (expectedImages vid (ImageRepo.count_by_vehicle_id db vid)
            db.nextId 0 files)[k]).is_primary =
          ((expectedImages vid (ImageRepo.count_by_vehicle_id db vid)
            db.nextId 0 files)[k]).is_primary from rfl, hc]
        constructor
        · rintro ⟨h1, h2⟩; exact ⟨h1, by omega⟩
        · rintro ⟨h1, h2⟩; exact ⟨h1, by omega⟩

/-- Witness for C6: the 11th image of vehicle 7 is rejected, and a
one-file batch on the two-image vehicle 3 succeeds. -/
theorem upload_images_positions_witness :
    VehicleImageService.upload_images exImgDb10 7 [exFileOk] =
      (exImgDb10, .error .invalidArgument) ∧
    ∃ res, VehicleImageService.upload_images exImgDb 3 [exFileOk] =
        ({ images := exImgDb.images ++
            expectedImages 3 (ImageRepo.count_by_vehicle_id exImgDb 3)
              exImgDb.nextId 0 [exFileOk],
           nextId := exImgDb.nextId + [exFileOk].length }, .ok res) ∧
      res.length = [exFileOk].length ∧
      ∀ k (hk : k < res.length),
        (res.get ⟨k, hk⟩).position = ImageRepo.count_by_vehicle_id exImgDb 3 + k + 1 ∧
        ((res.get ⟨k, hk⟩).is_primary = true ↔
          (ImageRepo.count_by_vehicle_id exImgDb 3 = 0 ∧ k = 0)) :=
  ⟨(upload_images_positions exImgDb10 7 [exFileOk]).1 (by decide),
    (upload_images_positions exImgDb 3 [exFileOk]).2 (by decide) (by decide)⟩

/-! ## C7: auxiliary facts about sorting, compaction and promotion -/

/-- A run of images that is sorted by position with pairwise-distinct
positions is strictly sorted. -/
theorem pairwise_posLt_of_sorted {l : List VehicleImage}
    (hs : List.Pairwise posLe l) (hn : (l.map VehicleImage.position).Nodup) :
    List.Pairwise posLt l := by
  have hne : l.Pairwise (fun a b => a.position ≠ b.position) := by
    rw [List.Nodup, List.pairwise_map] at hn
    exact hn
  exact (hs.and hne).imp (fun h => Nat.lt_of_le_of_ne h.1 h.2)

/-- Python `min` keeps the start value when nothing is strictly below it. -/
theorem minByPos_eq_self {x : VehicleImage} :
    ∀ {xs : List VehicleImage}, (∀ y ∈ xs, ¬ y.position < x.position) →
      minByPos x xs = x := by
  intro xs
  induction xs with
  | nil => intro _; rfl
  | cons y ys ih =>
    intro h
    show List.foldl _ (if y.position < x.position then y else x) ys = x
    rw [if_neg (h y (List.mem_cons_self ..))]
    exact ih (fun z hz => h z (List.mem_cons_of_mem _ hz))

/-- The reorder pairs draw their keys from the walked images. -/
theorem reorderUpdates_keys_sublist :
    ∀ (l : List VehicleImage) (p : Nat),
      List.Sublist ((reorderUpdates l p).map Prod.fst) (l.map VehicleImage.id) := by
  intro l
  induction l with
  | nil => intro p; simp [reorderUpdates]
  | cons x xs ih =>
    intro p
    unfold reorderUpdates
    by_cases h : x.position ≠ p
    · rw [if_pos h]
      exact List.Sublist.cons₂ x.id (ih (p + 1))
    · rw [if_neg h]
      exact List.Sublist.cons x.id (ih (p + 1))

/-- A key that belongs to none of the walked images is not assigned a
position. -/
theorem lookup_reorderUpdates_none :
    ∀ (l : List VehicleImage) (p x : Nat), (∀ i ∈ l, i.id ≠ x) →
      (reorderUpdates l p).lookup x = none := by
  intro l
  induction l with
  | nil => intro p x _; rfl
  | cons y ys ih =>
    intro p x h
    unfold reorderUpdates
    have hxy : (x == y.id) = false := by
      simp only [beq_eq_false_iff_ne, ne_eq]
      exact fun he => h y (List.mem_cons_self ..) he.symm
    by_cases hpos : y.position ≠ p
    · rw [if_pos hpos]
      simp only [List.lookup, hxy]
      exact ih (p + 1) x (fun i hi => h i (List.mem_cons_of_mem _ hi))
    · rw [if_neg hpos]
      exact ih (p + 1) x (fun i hi => h i (List.mem_cons_of_mem _ hi))

/-- Walking a run with distinct ids from counter `p`, the `k`-th image is
assigned position `p + k` — either through a recorded pair, or by already
sitting there. -/
theorem lookup_reorderUpdates_getD :
    ∀ (l : List VehicleImage), (l.map VehicleImage.id).Nodup →
      ∀ (p k : Nat) (hk : k < l.length),
        ((reorderUpdates l p).lookup (l.get ⟨k, hk⟩).id).getD (l.get ⟨k, hk⟩).position =
          p + k := by
  intro l
  induction l with
  | nil => intro _ p k hk; simp at hk
  | cons x xs ih =>
    intro hn p k hk
    have hn' : x.id ∉ xs.map VehicleImage.id ∧ (xs.map VehicleImage.id).Nodup :=
      List.nodup_cons.1 hn
    cases k with
    | zero =>
      show ((reorderUpdates (x :: xs) p).lookup x.id).getD x.position = p + 0
      unfold reorderUpdates
      by_cases hpos : x.position ≠ p
      · rw [if_pos hpos]
        simp
      · rw [if_neg hpos]
        push_neg at hpos
        rw [lookup_reorderUpdates_none xs (p + 1) x.id
          (fun i hi he => hn'.1 (he ▸ List.mem_map_of_mem VehicleImage.id hi))]
        simp [hpos]
    | succ k' =>
      have hk' : k' < xs.length := by simpa using hk
      show ((reorderUpdates (x :: xs) p).lookup (xs.get ⟨k', hk'⟩).id).getD
          (xs.get ⟨k', hk'⟩).position = p + (k' + 1)
      have hne : ((xs.get ⟨k', hk'⟩).id == x.id) = false := by
        simp only [beq_eq_false_iff_ne, ne_eq]
        exact fun he => hn'.1 (he ▸ List.mem_map_of_mem VehicleImage.id (xs.get_mem ..))
      unfold reorderUpdates
      by_cases hpos : x.position ≠ p
      · rw [if_pos hpos]
        simp only [List.lookup, hne]
        rw [ih hn'.2 (p + 1) k' hk']
        omega
      · rw [if_neg hpos]
        rw [ih hn'.2 (p + 1) k' hk']
        omega

/-- The sequence of position UPDATEs, for pairwise-distinct keys, acts on
each row of the vehicle as one lookup into the pair list. -/
theorem update_positions_eq_map (vid : Nat) :
    ∀ (ps : List (Nat × Nat)), (ps.map Prod.fst).Nodup →
      ∀ (l : List VehicleImage),
        ps.foldl (fun imgs p => imgs.map (fun i =>
            if i.id == p.1 && i.vehicle_id == vid then { i with position := p.2 } else i)) l =
          l.map (applyPositionLookup vid ps) := by
  unfold applyPositionLookup
  intro ps
  induction ps with
  | nil =>
    intro _ l
    simp only [List.foldl_nil, List.lookup_nil, Option.getD_none]
    have hpt : ∀ i ∈ l,
        (if i.vehicle_id == vid then { i with position := i.position } else i) = id i := by
      intro i _
      by_cases h : i.vehicle_id = vid
      · rw [if_pos (by simp [h])]
        rfl
      · rw [if_neg (by simp [h])]
        rfl
    rw [List.map_congr_left hpt, List.map_id]
  | cons q ps ih =>
    intro hn l
    have hq : q.1 ∉ ps.map Prod.fst := (List.nodup_cons.1 hn).1
    have hn2 : (ps.map Prod.fst).Nodup := (List.nodup_cons.1 hn).2
    simp only [List.foldl_cons]
    rw [ih hn2, List.map_map]
    apply List.map_congr_left
    intro i _
    simp only [Function.comp]
    by_cases hv : i.vehicle_id = vid
    · by_cases hid : i.id = q.1
      · have hlk : List.lookup q.1 ps = none := by
          rw [List.lookup_eq_none_iff]
          intro pr hpr
          simp only [bne_iff_ne, ne_eq]
          exact fun he => hq (he ▸ List.mem_map_of_mem Prod.fst hpr)
        have hbq : (i.id == q.1) = true := by simp [hid]
        simp [hv, hbq, hid, List.lookup, hlk]
      · have hbq : (i.id == q.1) = false := by simp [hid]
        simp [hv, hbq, List.lookup]
    · have hbv : (i.vehicle_id == vid) = false := by simp [hv]
      simp [hbv]

/-- `stampPositions` keeps the length. -/
theorem stampPositions_length :
    ∀ (l : List VehicleImage) (p : Nat), (stampPositions l p).length = l.length := by
  intro l
  induction l with
  | nil => intro p; rfl
  | cons x xs ih => intro p; simp [stampPositions, ih]

/-- `stampPositions` keeps the ids, in order. -/
theorem stampPositions_map_id :
    ∀ (l : List VehicleImage) (p : Nat),
      (stampPositions l p).map VehicleImage.id = l.map VehicleImage.id := by
  intro l
  induction l with
  | nil => intro p; rfl
  | cons x xs ih => intro p; simp [stampPositions, ih]

/-- `stampPositions` writes the consecutive positions `p, p+1, ...`. -/
theorem stampPositions_map_position :
    ∀ (l : List VehicleImage) (p : Nat),
      (stampPositions l p).map VehicleImage.position = List.range' p l.length := by
  intro l
  induction l with
  | nil => intro p; rfl
  | cons x xs ih => intro p; simp [stampPositions, ih, List.range'_succ]

/-- `stampPositions` keeps the primary flags, in order. -/
theorem stampPositions_filter_prim :
    ∀ (l : List VehicleImage) (p : Nat),
      ((stampPositions l p).filter (fun i => i.is_primary)).length =
        (l.filter (fun i => i.is_primary)).length := by
  intro l
  induction l with
  | nil => intro p; rfl
  | cons x xs ih =>
    intro p
    by_cases h : x.is_primary <;>
      simp [stampPositions, List.filter_cons, h, ih]

/-- Every stamped image sits at or above the starting counter. -/
theorem stampPositions_pos_ge :
    ∀ (l : List VehicleImage) (p : Nat) (y : VehicleImage),
      y ∈ stampPositions l p → p ≤ y.position := by
  intro l
  induction l with
  | nil => intro p y hy; simp [stampPositions] at hy
  | cons x xs ih =>
    intro p y hy
    rcases List.mem_cons.1 hy with rfl | hy'
    · exact Nat.le_refl _
    · exact Nat.le_of_lt (ih (p + 1) y hy')

/-- Stamped images are strictly sorted by position. -/
theorem stampPositions_pairwise :
    ∀ (l : List VehicleImage) (p : Nat), List.Pairwise posLt (stampPositions l p) := by
  intro l
  induction l with
  | nil => intro p; exact List.Pairwise.nil
  | cons x xs ih =>
    intro p
    refine List.Pairwise.cons ?_ (ih (p + 1))
    intro y hy
    exact Nat.lt_of_lt_of_le (Nat.lt_succ_self p) (stampPositions_pos_ge xs (p + 1) y hy)

/-- The `k`-th stamped image is the `k`-th input image re-positioned. -/
theorem stampPositions_get :
    ∀ (l : List VehicleImage) (p k : Nat) (hk : k < (stampPositions l p).length)
      (hk' : k < l.length),
      (stampPositions l p).get ⟨k, hk⟩ = { l.get ⟨k, hk'⟩ with position := p + k } := by
  intro l
  induction l with
  | nil => intro p k hk _; simp [stampPositions] at hk
  | cons x xs ih =>
    intro p k hk hk'
    cases k with
    | zero => rfl
    | succ k' =>
      have h1 : k' < (stampPositions xs (p + 1)).length := by
        simpa [stampPositions] using hk
      have h2 : k' < xs.length := by simpa using hk'
      show (stampPositions xs (p + 1)).get ⟨k', h1⟩ = _
      rw [ih (p + 1) k' h1 h2]
      show _ = { xs.get ⟨k', h2⟩ with position := p + (k' + 1) }
      have : p + 1 + k' = p + (k' + 1) := by omega
      rw [this]

/-- Every stamped image arises from an input image by rewriting only its
position. -/
theorem stampPositions_mem :
    ∀ (l : List VehicleImage) (p : Nat) (y : VehicleImage), y ∈ stampPositions l p →
      ∃ z, z ∈ l ∧ y.id = z.id ∧ y.vehicle_id = z.vehicle_id ∧
        y.is_primary = z.is_primary ∧ p ≤ y.position := by
  intro l
  induction l with
  | nil => intro p y hy; simp [stampPositions] at hy
  | cons x xs ih =>
    intro p y hy
    rcases List.mem_cons.1 hy with rfl | hy'
    · exact ⟨x, List.mem_cons_self .., rfl, rfl, rfl, Nat.le_refl _⟩
    · obtain ⟨z, hz, h1, h2, h3, h4⟩ := ih (p + 1) y hy'
      exact ⟨z, List.mem_cons_of_mem _ hz, h1, h2, h3, Nat.le_of_succ_le h4⟩

/-- The primary-flag rewrite keeps positions. -/
theorem applyPrimaryFlag_position (vid image_id : Nat) (i : VehicleImage) :
    (applyPrimaryFlag vid image_id i).position = i.position := by
  unfold applyPrimaryFlag
  by_cases h : (i.vehicle_id == vid) = true
  · rw [if_pos h]
  · rw [if_neg h]

/-- The primary-flag rewrite keeps vehicle ids. -/
theorem applyPrimaryFlag_veh (vid image_id : Nat) (i : VehicleImage) :
    (applyPrimaryFlag vid image_id i).vehicle_id = i.vehicle_id := by
  unfold applyPrimaryFlag
  by_cases h : (i.vehicle_id == vid) = true
  · rw [if_pos h]
  · rw [if_neg h]

/-- The primary-flag rewrite keeps image ids. -/
theorem applyPrimaryFlag_id (vid image_id : Nat) (i : VehicleImage) :
    (applyPrimaryFlag vid image_id i).id = i.id := by
  unfold applyPrimaryFlag
  by_cases h : (i.vehicle_id == vid) = true
  · rw [if_pos h]
  · rw [if_neg h]

/-- On a row of the vehicle, the primary-flag rewrite sets the flag to
"is this the target image". -/
theorem applyPrimaryFlag_of_veh {vid : Nat} (image_id : Nat) {i : VehicleImage}
    (h : (i.vehicle_id == vid) = true) :
    applyPrimaryFlag vid image_id i = { i with is_primary := i.id == image_id } := by
  unfold applyPrimaryFlag
  rw [if_pos h]

/-- The position rewrite keeps the primary flag. -/
theorem applyPositionLookup_prim (vid : Nat) (ps : List (Nat × Nat)) (i : VehicleImage) :
    (applyPositionLookup vid ps i).is_primary = i.is_primary := by
  unfold applyPositionLookup
  by_cases h : (i.vehicle_id == vid) = true
  · rw [if_pos h]
  · rw [if_neg h]

/-- Sorting by position is determined by any strictly-sorted
rearrangement. -/
theorem insertionSort_eq_of_perm_strict {A Tl : List VehicleImage}
    (hperm : List.Perm A Tl) (hTl : List.Pairwise posLt Tl) :
    List.insertionSort posLe A = Tl := by
  have h1 : List.Perm (List.insertionSort posLe A) Tl :=
    (List.perm_insertionSort posLe A).trans hperm
  have hsorted : List.Pairwise posLe (List.insertionSort posLe A) :=
    List.sorted_insertionSort posLe A
  have hnodup : ((List.insertionSort posLe A).map VehicleImage.position).Nodup := by
    refine ((h1.map VehicleImage.position).nodup_iff).2 ?_
    rw [List.Nodup, List.pairwise_map]
    exact hTl.imp (fun h => Nat.ne_of_lt h)
  exact List.eq_of_perm_of_sorted h1 (pairwise_posLt_of_sorted hsorted hnodup) hTl

/-- Position compaction: with pairwise-distinct ids among the rows of
the vehicle, the UPDATE sequence computed by the walk rewrites those
rows by lookup, and on the sorted run that lookup stamps the positions
`1..N`. -/
theorem compaction_spec (db1 : ImageDb) (vid : Nat)
    (hidnd : ((db1.images.filter (fun i => i.vehicle_id == vid)).map VehicleImage.id).Nodup) :
    (ImageRepo.update_positions db1 vid
        (reorderUpdates (List.insertionSort posLe
          (db1.images.filter (fun i => i.vehicle_id == vid))) 1)).images.filter
      (fun i => i.vehicle_id == vid) =
      (db1.images.filter (fun i => i.vehicle_id == vid)).map
        (applyPositionLookup vid (reorderUpdates (List.insertionSort posLe
          (db1.images.filter (fun i => i.vehicle_id == vid))) 1)) ∧
    (List.insertionSort posLe (db1.images.filter (fun i => i.vehicle_id == vid))).map
        (applyPositionLookup vid (reorderUpdates (List.insertionSort posLe
          (db1.images.filter (fun i => i.vehicle_id == vid))) 1)) =
      stampPositions (List.insertionSort posLe
        (db1.images.filter (fun i => i.vehicle_id == vid))) 1 := by
  set old := db1.images.filter (fun i => i.vehicle_id == vid) with hold
  set S := List.insertionSort posLe old with hSdef
  have hSperm : List.Perm S old := List.perm_insertionSort posLe old
  have hS_idnd : (S.map VehicleImage.id).Nodup := ((hSperm.map _).nodup_iff).2 hidnd
  have hkeys : ((reorderUpdates S 1).map Prod.fst).Nodup :=
    List.Nodup.sublist (reorderUpdates_keys_sublist S 1) hS_idnd
  constructor
  · have himgs : (ImageRepo.update_positions db1 vid (reorderUpdates S 1)).images =
        db1.images.map (applyPositionLookup vid (reorderUpdates S 1)) :=
      update_positions_eq_map vid (reorderUpdates S 1) hkeys db1.images
    rw [himgs, List.filter_map]
    have hcong : ∀ i ∈ db1.images,
        ((fun j => j.vehicle_id == vid) ∘
          applyPositionLookup vid (reorderUpdates S 1)) i = (i.vehicle_id == vid) := by
      intro i _
      by_cases h : i.vehicle_id = vid
      · have hb : (i.vehicle_id == vid) = true := by simp [h]
        simp [Function.comp, applyPositionLookup, hb]
      · have hb : (i.vehicle_id == vid) = false := by simp [h]
        simp [Function.comp, applyPositionLookup, hb]
    rw [List.filter_congr hcong]
  · apply List.ext_get
    · rw [List.length_map, stampPositions_length]
    · intro k h1 h2
      have hkS : k < S.length := by simpa using h1
      have hget : (S.map (applyPositionLookup vid (reorderUpdates S 1))).get ⟨k, h1⟩ =
          applyPositionLookup vid (reorderUpdates S 1) (S.get ⟨k, hkS⟩) := by
        simp [List.get_eq_getElem, List.getElem_map]
      rw [hget, stampPositions_get S 1 k h2 hkS]
      have hmem : S.get ⟨k, hkS⟩ ∈ old := hSperm.subset (List.get_mem ..)
      have hveh : ((S.get ⟨k, hkS⟩).vehicle_id == vid) = true := (List.mem_filter.1 hmem).2
      unfold applyPositionLookup
      rw [if_pos hveh, lookup_reorderUpdates_getD S hS_idnd 1 k hkS]

/-- Behaviour of `_reorder_after_deletion` on a vehicle whose rows have
pairwise-distinct ids and positions: positions are compacted to `1..N`
preserving the order by former positions, the row set of the vehicle (by id)
is unchanged, primary flags are untouched when the deleted image was not
primary, and when it was primary the row now at position 1 — and only
it — ends up primary. -/
theorem reorder_after_deletion_spec (db1 : ImageDb) (vid : Nat) (wasPrim : Bool)
    (hidnd : ((db1.images.filter (fun i => i.vehicle_id == vid)).map VehicleImage.id).Nodup)
    (hposnd : ((db1.images.filter (fun i => i.vehicle_id == vid)).map
      VehicleImage.position).Nodup) :
    (List.insertionSort posLe
        ((VehicleImageService.reorder_after_deletion db1 vid wasPrim).images.filter
          (fun i => i.vehicle_id == vid))).map VehicleImage.position =
      List.range' 1 (db1.images.filter (fun i => i.vehicle_id == vid)).length ∧
    (List.insertionSort posLe
        ((VehicleImageService.reorder_after_deletion db1 vid wasPrim).images.filter
          (fun i => i.vehicle_id == vid))).map VehicleImage.id =
      (List.insertionSort posLe (db1.images.filter
        (fun i => i.vehicle_id == vid))).map VehicleImage.id ∧
    (wasPrim = false →
      (((VehicleImageService.reorder_after_deletion db1 vid wasPrim).images.filter
          (fun i => i.vehicle_id == vid)).filter (fun i => i.is_primary)).length =
        ((db1.images.filter (fun i => i.vehicle_id == vid)).filter
          (fun i => i.is_primary)).length) ∧
    (wasPrim = true → db1.images.filter (fun i => i.vehicle_id == vid) ≠ [] →
      (((VehicleImageService.reorder_after_deletion db1 vid wasPrim).images.filter
          (fun i => i.vehicle_id == vid)).filter (fun i => i.is_primary)).length = 1 ∧
      ∀ j ∈ (VehicleImageService.reorder_after_deletion db1 vid wasPrim).images.filter
          (fun i => i.vehicle_id == vid), j.position = 1 → j.is_primary = true) := by
  obtain ⟨hflt, hmapT⟩ := compaction_spec db1 vid hidnd
  have hSperm := List.perm_insertionSort posLe
    (db1.images.filter (fun i => i.vehicle_id == vid))
  have hS_posnd : ((List.insertionSort posLe (db1.images.filter
      (fun i => i.vehicle_id == vid))).map VehicleImage.position).Nodup :=
    ((hSperm.map _).nodup_iff).2 hposnd
  have hS_idnd : ((List.insertionSort posLe (db1.images.filter
      (fun i => i.vehicle_id == vid))).map VehicleImage.id).Nodup :=
    ((hSperm.map _).nodup_iff).2 hidnd
  have hS_lt := pairwise_posLt_of_sorted (List.sorted_insertionSort posLe
    (db1.images.filter (fun i => i.vehicle_id == vid))) hS_posnd
  have hprim_pt : ∀ c ∈ db1.images.filter (fun i => i.vehicle_id == vid),
      ((fun j => j.is_primary) ∘ applyPositionLookup vid
        (reorderUpdates (List.insertionSort posLe (db1.images.filter
          (fun i => i.vehicle_id == vid))) 1)) c = c.is_primary :=
    fun c _ => applyPositionLookup_prim ..
  cases wasPrim with
  | false =>
    have hred : VehicleImageService.reorder_after_deletion db1 vid false =
        ImageRepo.update_positions db1 vid (reorderUpdates (List.insertionSort posLe
          (db1.images.filter (fun i => i.vehicle_id == vid))) 1) := by
      unfold VehicleImageService.reorder_after_deletion ImageRepo.find_by_vehicle_id
      rw [if_neg (by exact Bool.false_ne_true)]
      by_cases he : (reorderUpdates (List.insertionSort posLe (db1.images.filter
          (fun i => i.vehicle_id == vid))) 1).isEmpty = true
      · rw [if_pos he, List.isEmpty_iff.1 he]
        rfl
      · rw [if_neg he]
    rw [hred]
    have hAfterPerm : List.Perm ((ImageRepo.update_positions db1 vid
        (reorderUpdates (List.insertionSort posLe (db1.images.filter
          (fun i => i.vehicle_id == vid))) 1)).images.filter
          (fun i => i.vehicle_id == vid))
        (stampPositions (List.insertionSort posLe (db1.images.filter
          (fun i => i.vehicle_id == vid))) 1) := by
      rw [hflt, ← hmapT]
      exact (hSperm.map _).symm
    rw [insertionSort_eq_of_perm_strict hAfterPerm (stampPositions_pairwise _ 1)]
    refine ⟨?_, ?_, ?_, ?_⟩
    · rw [stampPositions_map_position, hSperm.length_eq]
    · rw [stampPositions_map_id]
    · intro _
      rw [hflt, List.filter_map, List.length_map, List.filter_congr hprim_pt]
    · intro hcontra
      exact absurd hcontra Bool.false_ne_true
  | true =>
    cases hS0 : List.insertionSort posLe (db1.images.filter
        (fun i => i.vehicle_id == vid)) with
    | nil =>
      have hold_nil : db1.images.filter (fun i => i.vehicle_id == vid) = [] := by
        have h := hSperm
        rw [hS0] at h
        exact h.symm.eq_nil
      have hred : VehicleImageService.reorder_after_deletion db1 vid true = db1 := by
        unfold VehicleImageService.reorder_after_deletion ImageRepo.find_by_vehicle_id
        rw [hS0]
        rfl
      rw [hred, hold_nil]
      refine ⟨rfl, rfl, fun h => absurd h (by simp), fun _ hne => absurd rfl hne⟩
    | cons x xs =>
      rw [hS0] at hflt hmapT hS_lt hS_idnd hprim_pt
      have hSperm' := hSperm
      rw [hS0] at hSperm'
      have hxmin : minByPos x xs = x := by
        apply minByPos_eq_self
        intro y hy
        exact Nat.lt_asymm ((List.pairwise_cons.1 hS_lt).1 y hy)
      have hred : VehicleImageService.reorder_after_deletion db1 vid true =
          (ImageRepo.set_primary_image (ImageRepo.update_positions db1 vid
            (reorderUpdates (x :: xs) 1)) vid x.id).1 := by
        unfold VehicleImageService.reorder_after_deletion ImageRepo.find_by_vehicle_id
        rw [hS0]
        show (ImageRepo.set_primary_image (if (reorderUpdates (x :: xs) 1).isEmpty then db1
            else ImageRepo.update_positions db1 vid (reorderUpdates (x :: xs) 1)) vid
            (minByPos x xs).id).1 = _
        rw [hxmin]
        by_cases he : (reorderUpdates (x :: xs) 1).isEmpty = true
        · rw [if_pos he, List.isEmpty_iff.1 he]
          rfl
        · rw [if_neg he]
      rw [hred]
      obtain ⟨hspi, -⟩ := set_primary_image_spec (ImageRepo.update_positions db1 vid
        (reorderUpdates (x :: xs) 1)) vid x.id
      have hvehg : ∀ c ∈ (ImageRepo.update_positions db1 vid
          (reorderUpdates (x :: xs) 1)).images,
          ((fun j => j.vehicle_id == vid) ∘ applyPrimaryFlag vid x.id) c =
            (c.vehicle_id == vid) := by
        intro c _
        show ((applyPrimaryFlag vid x.id c).vehicle_id == vid) = (c.vehicle_id == vid)
        rw [applyPrimaryFlag_veh]
      have hafter : (ImageRepo.set_primary_image (ImageRepo.update_positions db1 vid
          (reorderUpdates (x :: xs) 1)) vid x.id).1.images.filter
          (fun i => i.vehicle_id == vid) =
          ((db1.images.filter (fun i => i.vehicle_id == vid)).map
            (applyPositionLookup vid (reorderUpdates (x :: xs) 1))).map
            (applyPrimaryFlag vid x.id) := by
        rw [hspi, List.filter_map, List.filter_congr hvehg, hflt]
      have hAfterPerm : List.Perm ((ImageRepo.set_primary_image
          (ImageRepo.update_positions db1 vid (reorderUpdates (x :: xs) 1)) vid
          x.id).1.images.filter (fun i => i.vehicle_id == vid))
          ((stampPositions (x :: xs) 1).map (applyPrimaryFlag vid x.id)) := by
        rw [hafter, ← hmapT]
        exact ((hSperm'.map _).symm).map _
      have hU_lt : List.Pairwise posLt
          ((stampPositions (x :: xs) 1).map (applyPrimaryFlag vid x.id)) := by
        rw [List.pairwise_map]
        refine (stampPositions_pairwise (x :: xs) 1).imp ?_
        intro a b hab
        show (applyPrimaryFlag vid x.id a).position < (applyPrimaryFlag vid x.id b).position
        rw [applyPrimaryFlag_position, applyPrimaryFlag_position]
        exact hab
      rw [insertionSort_eq_of_perm_strict hAfterPerm hU_lt]
      have hUpos : ((stampPositions (x :: xs) 1).map (applyPrimaryFlag vid x.id)).map
          VehicleImage.position =
          (stampPositions (x :: xs) 1).map VehicleImage.position := by
        rw [List.map_map]
        apply List.map_congr_left
        intro c _
        exact applyPrimaryFlag_position vid x.id c
      have hUid : ((stampPositions (x :: xs) 1).map (applyPrimaryFlag vid x.id)).map
          VehicleImage.id = (stampPositions (x :: xs) 1).map VehicleImage.id := by
        rw [List.map_map]
        apply List.map_congr_left
        intro c _
        exact applyPrimaryFlag_id vid x.id c
      have hveh_x : (x.vehicle_id == vid) = true :=
        (List.mem_filter.1 (hSperm'.subset (List.mem_cons_self ..))).2
      have hveh_T : ∀ t ∈ stampPositions (x :: xs) 1, (t.vehicle_id == vid) = true := by
        intro t ht
        obtain ⟨z, hz, -, hzveh, -, -⟩ := stampPositions_mem (x :: xs) 1 t ht
        rw [hzveh]
        exact (List.mem_filter.1 (hSperm'.subset hz)).2
      have hfc : ∀ t ∈ stampPositions (x :: xs) 1,
          ((fun j => j.is_primary) ∘ applyPrimaryFlag vid x.id) t = (t.id == x.id) := by
        intro t ht
        show (applyPrimaryFlag vid x.id t).is_primary = (t.id == x.id)
        rw [applyPrimaryFlag_of_veh x.id (hveh_T t ht)]
      have hcount : (((stampPositions (x :: xs) 1).map
          (applyPrimaryFlag vid x.id)).filter (fun i => i.is_primary)).length = 1 := by
        rw [List.filter_map, List.filter_congr hfc, List.length_map]
        show (List.filter (fun t => t.id == x.id)
          ({ x with position := 1 } :: stampPositions xs 2)).length = 1
        rw [List.filter_cons]
        have hxx : (({ x with position := 1 } : VehicleImage).id == x.id) = true := by simp
        rw [if_pos hxx]
        have hrest : List.filter (fun t => t.id == x.id) (stampPositions xs 2) = [] := by
          rw [List.filter_eq_nil_iff]
          intro t ht
          obtain ⟨z, hz, hzid, -, -, -⟩ := stampPositions_mem xs 2 t ht
          simp only [beq_iff_eq, hzid]
          intro he
          exact (List.nodup_cons.1 hS_idnd).1
            (he ▸ List.mem_map_of_mem VehicleImage.id hz)
        rw [hrest]
        rfl
      have hpos1 : ∀ j ∈ (stampPositions (x :: xs) 1).map (applyPrimaryFlag vid x.id),
          j.position = 1 → j.is_primary = true := by
        intro j hj hj1
        obtain ⟨t, ht, rfl⟩ := List.mem_map.1 hj
        rcases List.mem_cons.1 ht with rfl | ht'
        · rw [applyPrimaryFlag_of_veh x.id (hveh_T _ ht)]
          simp
        · exfalso
          obtain ⟨-, -, -, -, -, hge⟩ := stampPositions_mem xs 2 t ht'
          rw [applyPrimaryFlag_position] at hj1
          omega
      refine ⟨?_, ?_, fun h => absurd h (by simp), fun _ _ =>
        ⟨((hAfterPerm.filter (fun i => i.is_primary)).length_eq).trans hcount, ?_⟩⟩
      · rw [hUpos, stampPositions_map_position, hSperm'.length_eq]
      · rw [hUid, stampPositions_map_id]
      · intro j hj
        exact hpos1 j (hAfterPerm.subset hj)

/-! ## C7 -/

/-- C7: deleting the sole image of a vehicle fails with InvalidArgument
and changes nothing; deleting one of several images succeeds, leaves the
positions of the remaining images as a dense `1..N` sequence preserving their
relative order (sorted by new positions they carry the same ids, in the
same order, as the survivors sorted by old positions), exactly one image
of the vehicle remains primary, and when the deleted image was primary
the image now at position 1 is primary. The hypotheses are the database
invariants: globally unique row ids, unique positions and exactly one
primary among the images of the vehicle. -/
theorem delete_image_invariants :
    ∀ (db : ImageDb) (image_id : Nat) (img : VehicleImage),
      ImageRepo.find_by_id db image_id = some img →
      (db.images.map VehicleImage.id).Nodup →
      ((db.images.filter (fun i => i.vehicle_id == img.vehicle_id)).map
        VehicleImage.position).Nodup →
      ((db.images.filter (fun i => i.vehicle_id == img.vehicle_id)).filter
        (fun i => i.is_primary)).length = 1 →
      (ImageRepo.count_by_vehicle_id db img.vehicle_id = 1 →
        VehicleImageService.delete_image db image_id = (db, .error .invalidArgument)) ∧
      (1 < ImageRepo.count_by_vehicle_id db img.vehicle_id →
        ∃ db2, VehicleImageService.delete_image db image_id = (db2, .ok true) ∧
          (List.insertionSort posLe (db2.images.filter
              (fun i => i.vehicle_id == img.vehicle_id))).map VehicleImage.position =
            List.range' 1 (ImageRepo.count_by_vehicle_id db img.vehicle_id - 1) ∧
          (List.insertionSort posLe (db2.images.filter
              (fun i => i.vehicle_id == img.vehicle_id))).map VehicleImage.id =
            (List.insertionSort posLe (db.images.filter
              (fun i => i.vehicle_id == img.vehicle_id && i.id != image_id))).map
              VehicleImage.id ∧
          ((db2.images.filter (fun i => i.vehicle_id == img.vehicle_id)).filter
            (fun i => i.is_primary)).length = 1 ∧
          (img.is_primary = true →
            ∀ j ∈ db2.images.filter (fun i => i.vehicle_id == img.vehicle_id),
              j.position = 1 → j.is_primary = true)) := by
  intro db image_id img hfind hid hpos hprim
  have hfind' : db.images.find? (fun i => i.id == image_id) = some img := hfind
  have himgid : img.id = image_id := by simpa using List.find?_some hfind'
  have himgmem : img ∈ db.images := List.mem_of_find?_eq_some hfind'
  constructor
  · intro h1
    unfold VehicleImageService.delete_image ImageRepo.find_by_id
    rw [hfind']
    dsimp only
    rw [if_pos (by rw [h1]; exact Nat.le_refl 1)]
  · intro hcnt
    obtain ⟨a, l₁, l₂, h₁, hpa, hsplit, herase⟩ :=
      @List.exists_of_eraseP _ (fun i => i.id == image_id) _ _ himgmem
        (by simp [himgid])
    have ha : a = img := by
      have h2 : db.images.find? (fun i => i.id == image_id) = some a := by
        rw [hsplit, List.find?_append, List.find?_eq_none.2 h₁]
        simp [List.find?_cons, hpa]
      exact Option.some_inj.1 (h2.symm.trans hfind')
    rw [ha] at hpa hsplit
    have hpvimg : (img.vehicle_id == img.vehicle_id) = true := by simp
    have horig : db.images.filter (fun i => i.vehicle_id == img.vehicle_id) =
        l₁.filter (fun i => i.vehicle_id == img.vehicle_id) ++
          img :: l₂.filter (fun i => i.vehicle_id == img.vehicle_id) := by
      rw [hsplit, List.filter_append, List.filter_cons, if_pos hpvimg]
    have hcnt_eq : ImageRepo.count_by_vehicle_id db img.vehicle_id =
        (l₁.filter (fun i => i.vehicle_id == img.vehicle_id)).length +
          (l₂.filter (fun i => i.vehicle_id == img.vehicle_id)).length + 1 := by
      unfold ImageRepo.count_by_vehicle_id
      rw [horig]
      simp only [List.length_append, List.length_cons]
      omega
    have hl₁id : ∀ b ∈ l₁, (b.id == image_id) = false := by
      intro b hb
      have h := h₁ b hb
      rwa [Bool.not_eq_true] at h
    have hl₂id : ∀ b ∈ l₂, (b.id == image_id) = false := by
      intro b hb
      have hidm := hid
      rw [hsplit, List.map_append, List.map_cons] at hidm
      have hniq : img.id ∉ l₂.map VehicleImage.id :=
        (List.nodup_cons.1 hidm.of_append_right).1
      simp only [beq_eq_false_iff_ne, ne_eq]
      intro he
      exact hniq (by rw [himgid, ← he]; exact List.mem_map_of_mem VehicleImage.id hb)
    have hold_eq : (db.images.eraseP (fun i => i.id == image_id)).filter
        (fun i => i.vehicle_id == img.vehicle_id) =
        l₁.filter (fun i => i.vehicle_id == img.vehicle_id) ++
          l₂.filter (fun i => i.vehicle_id == img.vehicle_id) := by
      rw [herase, List.filter_append]
    have hbefore : db.images.filter
        (fun i => i.vehicle_id == img.vehicle_id && i.id != image_id) =
        (db.images.eraseP (fun i => i.id == image_id)).filter
          (fun i => i.vehicle_id == img.vehicle_id) := by
      rw [hold_eq, hsplit, List.filter_append, List.filter_cons]
      have himgc : (img.vehicle_id == img.vehicle_id && img.id != image_id) = false := by
        simp [himgid]
      rw [if_neg (by rw [himgc]; exact Bool.false_ne_true)]
      congr 1
      · apply List.filter_congr
        intro b hb
        have h1b : (b.id != image_id) = true := by
          simp only [bne, hl₁id b hb]
          rfl
        rw [h1b, Bool.and_true]
      · apply List.filter_congr
        intro b hb
        have h1b : (b.id != image_id) = true := by
          simp only [bne, hl₂id b hb]
          rfl
        rw [h1b, Bool.and_true]
    have hold_sub : List.Sublist
        ((db.images.eraseP (fun i => i.id == image_id)).filter
          (fun i => i.vehicle_id == img.vehicle_id))
        (db.images.filter (fun i => i.vehicle_id == img.vehicle_id)) := by
      rw [hold_eq, horig]
      exact List.Sublist.append_left (List.sublist_cons_self img _) _
    have hidnd1 : (((db.images.eraseP (fun i => i.id == image_id)).filter
        (fun i => i.vehicle_id == img.vehicle_id)).map VehicleImage.id).Nodup :=
      List.Nodup.sublist (hold_sub.map _)
        (List.Nodup.sublist ((List.filter_sublist db.images).map _) hid)
    have hposnd1 : (((db.images.eraseP (fun i => i.id == image_id)).filter
        (fun i => i.vehicle_id == img.vehicle_id)).map VehicleImage.position).Nodup :=
      List.Nodup.sublist (hold_sub.map _) hpos
    have holdlen : ((db.images.eraseP (fun i => i.id == image_id)).filter
        (fun i => i.vehicle_id == img.vehicle_id)).length =
        ImageRepo.count_by_vehicle_id db img.vehicle_id - 1 := by
      rw [hold_eq, hcnt_eq]
      simp only [List.length_append]
      omega
    have hold_ne : (db.images.eraseP (fun i => i.id == image_id)).filter
        (fun i => i.vehicle_id == img.vehicle_id) ≠ [] := by
      intro h
      rw [h] at holdlen
      simp only [List.length_nil] at holdlen
      omega
    have holdprim : img.is_primary = false →
        (((db.images.eraseP (fun i => i.id == image_id)).filter
            (fun i => i.vehicle_id == img.vehicle_id)).filter
          (fun i => i.is_primary)).length = 1 := by
      intro hp
      have h0 := hprim
      rw [horig, List.filter_append, List.filter_cons] at h0
      rw [if_neg (by rw [hp]; exact Bool.false_ne_true)] at h0
      rw [hold_eq, List.filter_append]
      exact h0
    have hdel : VehicleImageService.delete_image db image_id =
        (VehicleImageService.reorder_after_deletion
          { db with images := db.images.eraseP (fun i => i.id == image_id) }
          img.vehicle_id img.is_primary, .ok true) := by
      unfold VehicleImageService.delete_image ImageRepo.find_by_id ImageRepo.delete_by_id
      rw [hfind']
      dsimp only
      rw [if_neg (by unfold MIN_IMAGES_PER_VEHICLE; omega)]
      rfl
    obtain ⟨hA, hB, hC, hD⟩ := reorder_after_deletion_spec
      { db with images := db.images.eraseP (fun i => i.id == image_id) }
      img.vehicle_id img.is_primary hidnd1 hposnd1
    dsimp only at hA hB hC hD
    refine ⟨_, hdel, ?_, ?_, ?_, ?_⟩
    · rw [hA]
      exact congrArg (List.range' 1) holdlen
    · rw [hB, hbefore]
    · by_cases hpim : img.is_primary = true
      · exact (hD hpim hold_ne).1
      · rw [Bool.not_eq_true] at hpim
        rw [hC hpim]
        exact holdprim hpim
    · intro hpim
      exact (hD hpim hold_ne).2

/-- Witness for C7: on the two-image vehicle 3, deleting the primary image
at position 1 succeeds and re-establishes the invariants, and on a
one-image store the deletion is refused. -/
theorem delete_image_invariants_witness :
    (∃ db2, VehicleImageService.delete_image exImgDb 1 = (db2, .ok true) ∧
      (List.insertionSort posLe (db2.images.filter
          (fun i => i.vehicle_id == exImgA.vehicle_id))).map VehicleImage.position =
        List.range' 1 (ImageRepo.count_by_vehicle_id exImgDb exImgA.vehicle_id - 1) ∧
      (List.insertionSort posLe (db2.images.filter
          (fun i => i.vehicle_id == exImgA.vehicle_id))).map VehicleImage.id =
        (List.insertionSort posLe (exImgDb.images.filter
          (fun i => i.vehicle_id == exImgA.vehicle_id && i.id != 1))).map
          VehicleImage.id ∧
      ((db2.images.filter (fun i => i.vehicle_id == exImgA.vehicle_id)).filter
        (fun i => i.is_primary)).length = 1 ∧
      (exImgA.is_primary = true →
        ∀ j ∈ db2.images.filter (fun i => i.vehicle_id == exImgA.vehicle_id),
          j.position = 1 → j.is_primary = true)) ∧
    VehicleImageService.delete_image { images := [exImgA], nextId := 2 } 1 =
      ({ images := [exImgA], nextId := 2 }, .error .invalidArgument) :=
  ⟨(delete_image_invariants exImgDb 1 exImgA rfl (by decide) (by decide) (by decide)).2
      (by decide),
    (delete_image_invariants { images := [exImgA], nextId := 2 } 1 exImgA rfl (by decide)
      (by decide) (by decide)).1 (by decide)⟩

end CarSales
